import Mathlib

/-!
Verification of the relationship-graph and deal-health subsystem of the
sales-intelligence dashboard.

The JavaScript source is embedded shallowly:

* `GraphService` state (src/CDN/js/calendar.js, class starting line 413) becomes
  `GraphState` with explicit `nodes`, `edges`, `interactions` lists.
* JS numbers that carry fractional weights (edge strengths, scores) are modelled
  as rationals; all constants in the source are exactly representable.
* Timestamps (`new Date()`, ISO strings) are modelled as integer milliseconds
  since the epoch; functions that read the clock take an explicit `now` argument.
* `undefined` / missing record fields become `Option` values or the JS falsy
  default (empty string, zero) that the code would see.
* Fallible property accesses (reading a field of `undefined`, which throws a
  TypeError in JS) are modelled with `Option` results.

Each claim theorem cites the source lines it formalises.
-/

/-! ## String helpers

JS `String.prototype.includes` and `toLowerCase` are modelled by structural
recursion over the character list so that concrete instances reduce in the
kernel. -/

/-- Is `p` a prefix of `l`? (used to model JS substring containment). -/
def listPrefix : List Char → List Char → Bool
  | [], _ => true
  | _ :: _, [] => false
  | a :: p, b :: l => a == b && listPrefix p l

/-- Does `p` occur as a contiguous infix of the second list? -/
def listInfix (p : List Char) : List Char → Bool
  | [] => p.isEmpty
  | b :: l => listPrefix p (b :: l) || listInfix p l

/-- JS `s.includes(pat)`. -/
def strContains (s pat : String) : Bool := listInfix pat.data s.data

/-- JS `s.toLowerCase()` (ASCII-adequate for the keyword tables in the source). -/
def strLower (s : String) : String := String.mk (s.data.map Char.toLower)

/-- JS `Math.round`: round half toward positive infinity. -/
def jsRound (q : ℚ) : ℤ := ⌊q + 1/2⌋

/-- JS string truthiness: `undefined` and the empty string are falsy. -/
def jsStr (o : Option String) : Option String :=
  match o with
  | none => none
  | some s => if s = "" then none else some s

/-- JS `a || b` on possibly-missing strings. -/
def jsOr (a b : Option String) : Option String :=
  match jsStr a with
  | some s => some s
  | none => jsStr b

/-! ## Data model (calendar.js node/edge/interaction records) -/

/-- Edge `metadata` object (calendar.js lines 530-533, 1293-1298). -/
structure EdgeMeta where
  source : Option String := none
  lastVerified : Option ℤ := none
  lastInteraction : Option ℤ := none
  interactionCount : ℕ := 0
deriving DecidableEq

/-- Graph edge (calendar.js lines 523-534 and elsewhere). -/
structure Edge where
  id : String
  source : String
  target : String
  type : String
  strength : ℚ
  confirmed : Bool := true
  metadata : Option EdgeMeta := none
deriving DecidableEq

/-- Contact `metadata` object (calendar.js lines 479-483). -/
structure NodeMeta where
  dealCount : ℕ := 0
  interactionCount : ℕ := 0
  lastInteraction : Option ℤ := none
deriving DecidableEq

/-- Graph node; the JS records are duck-typed, so the contact / account / deal
fields are flattened with their JS-falsy defaults (calendar.js lines 466-511). -/
structure Node where
  id : String
  type : String
  name : String := ""
  title : String := ""
  company : String := ""
  email : String := ""
  influenceScore : ℚ := 0
  role : String := ""
  reportsTo : Option String := none
  managerId : Option String := none
  industry : String := ""
  value : ℚ := 0
  stage : String := ""
  phone : String := ""
  size : String := ""
  location : String := ""
  website : String := ""
  hubspotId : String := ""
  metadata : NodeMeta := {}
deriving DecidableEq

/-- Interaction record (calendar.js lines 1185-1196); `date` in epoch ms. -/
structure Interaction where
  id : String
  contactId : String
  type : String
  date : ℤ
  duration : Option ℚ := none
  subject : String := ""
  notes : String := ""
  dealId : Option String := none
  completed : Bool := true
deriving DecidableEq

/-- The mutable state of the `GraphService` singleton (calendar.js lines 414-418). -/
structure GraphState where
  nodes : List Node
  edges : List Edge
  interactions : List Interaction
deriving DecidableEq

/-! ## Influence scorer (calendar.js lines 959-1026) -/

/-- Role-based score component of `calculateContactInfluence`
(calendar.js lines 976-993): iterate the `roleScores` table in insertion order
and add the points of the first key that occurs in the lowercased title.
Note the table key `other` is matched by `title.includes(role)` like every
other key, so it only fires when the title literally contains `other`. -/
def roleScore (title : String) : ℕ :=
  let t := strLower title
  if strContains t "ceo" then 30
  else if strContains t "cto" then 25
  else if strContains t "cfo" then 25
  else if strContains t "vp" then 20
  else if strContains t "director" then 15
  else if strContains t "manager" then 10
  else if strContains t "other" then 5
  else 0

/-- `GraphService.calculateContactInfluence` (calendar.js lines 970-1026),
with `now` the value of `new Date()` in ms. -/
def calculateContactInfluence (s : GraphState) (now : ℤ) (contactId : String) : ℤ :=
  match s.nodes.find? (fun n => n.id == contactId) with
  | none => 0
  | some contact =>
    if contact.type != "contact" then 0
    else
      let role : ℚ := roleScore contact.title
      let dealEdges := s.edges.filter (fun e =>
        e.source == contactId && strContains e.type "deal")
      let strongRelationships := s.edges.filter (fun e =>
        (e.source == contactId || e.target == contactId) &&
        e.type != "works_at" && e.type != "belongs_to" &&
        decide ((7:ℚ)/10 ≤ e.strength))
      let recentInteractions := s.interactions.filter (fun i =>
        i.contactId == contactId && decide (((now - i.date : ℤ) : ℚ) / 86400000 ≤ 90))
      let connections := s.edges.filter (fun e =>
        (e.source == contactId || e.target == contactId) &&
        e.type != "works_at" && e.type != "belongs_to")
      let score : ℚ := role + min ((dealEdges.length : ℚ) * 10) 20
        + min ((strongRelationships.length : ℚ) * 3) 20
        + min ((recentInteractions.length : ℚ) * 2) 15
        + min ((connections.length : ℚ) * (3/2)) 15
      min (jsRound score) 100

/-- `GraphService.calculateInfluenceScores` (calendar.js lines 959-965).
The JS loop mutates `node.influenceScore` in place; since
`calculateContactInfluence` never reads `influenceScore`, mapping over the
original snapshot is equivalent. -/
def calculateInfluenceScores (s : GraphState) (now : ℤ) : GraphState :=
  { s with nodes := s.nodes.map (fun n =>
      if n.type == "contact" then
        { n with influenceScore := ((calculateContactInfluence s now n.id : ℤ) : ℚ) }
      else n) }

/-! ## Relationship strength updater (calendar.js lines 1184-1300) -/

/-- The `metadata` argument of `trackInteraction` (calendar.js line 1184). -/
structure Metadata where
  duration : Option ℚ := none
  subject : Option String := none
  notes : Option String := none
  dealId : Option String := none
  completed : Option Bool := none
deriving DecidableEq

/-- Base strength increment of the `switch` in `updateRelationshipStrength`
(calendar.js lines 1270-1284): calls earn 0.02 plus a 0.03 long-call bonus,
meetings 0.04, emails 0.01, anything else 0.005. -/
def interactionBase (interactionType : String) (meta : Metadata) : ℚ :=
  if interactionType == "call" then
    2/100 + (if 30 < meta.duration.getD 0 then (3:ℚ)/100 else 0)
  else if interactionType == "meeting" then 4/100
  else if interactionType == "email" then 1/100
  else 5/1000

/-- Per-interaction strength increase (calendar.js lines 1268-1289): the base
increment, multiplied by 1.2 unless `metadata.completed === false`. -/
def interactionIncrease (interactionType : String) (meta : Metadata) : ℚ :=
  if meta.completed != some false then interactionBase interactionType meta * (12/10)
  else interactionBase interactionType meta

/-- Apply `f` to the first element satisfying `p` (JS `Array.prototype.find`
followed by in-place mutation, calendar.js lines 1201-1205). -/
def updateFirst {α : Type} (p : α → Bool) (f : α → α) : List α → List α
  | [] => []
  | a :: t => if p a then f a :: t else a :: updateFirst p f t

/-- Per-edge body of the `forEach` in `updateRelationshipStrength`
(calendar.js lines 1266-1299): touched non-structural edges get the clamped
increase and refreshed metadata, every other edge is untouched. -/
def strengthUpdatedEdge (contactId interactionType : String) (meta : Metadata)
    (now : ℤ) (e : Edge) : Edge :=
  if (e.source == contactId || e.target == contactId)
      && e.type != "works_at" && e.type != "belongs_to" then
    { e with
      strength := min (e.strength + interactionIncrease interactionType meta) 1,
      metadata := some
        { (e.metadata.getD {}) with
          lastInteraction := some now,
          interactionCount := (e.metadata.getD {}).interactionCount + 1 } }
  else e

/-- `GraphService.updateRelationshipStrength` (calendar.js lines 1258-1300):
the JS filters the edges touching the contact (excluding the two structural
types) and mutates them in place, which is the same as this conditional map. -/
def updateRelationshipStrength (s : GraphState) (contactId interactionType : String)
    (meta : Metadata) (now : ℤ) : List Edge :=
  s.edges.map (strengthUpdatedEdge contactId interactionType meta now)

/-- `GraphService.trackInteraction` (calendar.js lines 1184-1221). The trailing
`...metadata` spread overrides the defaulted fields, so `completed` ends up as
`metadata.completed` when present and `true` otherwise. The HubSpot sync at
lines 1214-1218 is an external network call that does not touch the store. -/
def trackInteraction (s : GraphState) (contactId interactionType : String)
    (meta : Metadata) (now : ℤ) : GraphState :=
  let interaction : Interaction :=
    { id := "int_" ++ toString now, contactId := contactId, type := interactionType,
      date := now, duration := meta.duration, subject := meta.subject.getD "",
      notes := meta.notes.getD "", dealId := meta.dealId,
      completed := meta.completed.getD true }
  let s1 : GraphState := { s with interactions := s.interactions ++ [interaction] }
  let upd : List Node → List Node :=
    updateFirst (fun n => n.id == contactId && n.type == "contact")
      (fun n => { n with metadata := { n.metadata with
          interactionCount := n.metadata.interactionCount + 1,
          lastInteraction := some now } })
  let s2 : GraphState := { s1 with nodes := upd s1.nodes }
  let s3 : GraphState := { s2 with
      edges := updateRelationshipStrength s2 contactId interactionType meta now }
  calculateInfluenceScores s3 now

/-! ## Importer (calendar.js lines 453-593) and LinkedIn suggestions (598-644) -/

/-- Normalized contact record as returned by the HubSpot collaborator. -/
structure HSContact where
  id : String
  hubspotId : String := ""
  name : String := ""
  title : String := ""
  company : String := ""
  email : String := ""
  phone : String := ""
  role : String := ""
  reportsTo : Option String := none
  managerId : Option String := none
  companyId : Option String := none
  dealCount : ℕ := 0
  lastInteraction : Option ℤ := none
deriving DecidableEq

/-- Normalized company record from the HubSpot collaborator. -/
structure HSCompany where
  id : String
  hubspotId : String := ""
  name : String := ""
  industry : String := ""
  companySize : String := ""
  location : String := ""
  website : String := ""
deriving DecidableEq

/-- Normalized deal record from the HubSpot collaborator. -/
structure HSDeal where
  id : String
  hubspotId : String := ""
  name : String := ""
  value : ℚ := 0
  stage : String := ""
  companyId : Option String := none
  contactIds : List String := []
deriving DecidableEq

/-- Node construction of `loadFromHubSpot` (calendar.js lines 461-511):
contacts, then companies, then deals. -/
def buildHubSpotNodes (contacts : List HSContact) (companies : List HSCompany)
    (deals : List HSDeal) : List Node :=
  contacts.map (fun c =>
    { id := c.id, type := "contact", name := c.name, title := c.title,
      company := c.company, email := c.email, phone := c.phone, influenceScore := 0,
      role := c.role, hubspotId := c.hubspotId, reportsTo := c.reportsTo,
      managerId := c.managerId,
      metadata := { dealCount := c.dealCount, interactionCount := 0,
                    lastInteraction := c.lastInteraction } })
  ++ companies.map (fun co =>
    { id := co.id, type := "account", name := co.name, industry := co.industry,
      size := co.companySize, location := co.location, website := co.website,
      hubspotId := co.hubspotId })
  ++ deals.map (fun d =>
    { id := d.id, type := "deal", name := d.name, value := d.value, stage := d.stage,
      hubspotId := d.hubspotId })

/-- Organizational edges of `loadFromHubSpot` (calendar.js lines 516-552):
per contact, a `reports_to` edge when the manager reference resolves inside the
batch, then a `works_at` edge when the company reference resolves; unresolved
references silently produce no edge. -/
def hubSpotContactEdges (contacts : List HSContact) (companies : List HSCompany)
    (now : ℤ) : List Edge :=
  contacts.flatMap (fun c =>
    (match jsOr c.reportsTo c.managerId with
     | none => []
     | some managerId =>
       match contacts.find? (fun m => m.id == managerId || m.hubspotId == managerId) with
       | none => []
       | some manager =>
         [{ id := "edge_" ++ c.id ++ "_reports_" ++ manager.id,
            source := c.id, target := manager.id, type := "reports_to",
            strength := 9/10, confirmed := true,
            metadata := some { source := some "hubspot", lastVerified := some now } }]) ++
    (match jsStr c.companyId with
     | none => []
     | some companyId =>
       match companies.find? (fun co => co.hubspotId == companyId) with
       | none => []
       | some company =>
         [{ id := "edge_" ++ c.id ++ "_works_at_" ++ company.id,
            source := c.id, target := company.id, type := "works_at",
            strength := 1, confirmed := true }]))

/-- Deal edges of `loadFromHubSpot` (calendar.js lines 555-589): per deal a
`belongs_to` edge to the resolved company and one deal-role edge per resolved
associated contact. -/
def hubSpotDealEdges (deals : List HSDeal) (companies : List HSCompany)
    (contacts : List HSContact) : List Edge :=
  deals.flatMap (fun d =>
    (match jsStr d.companyId with
     | none => []
     | some companyId =>
       match companies.find? (fun co => co.hubspotId == companyId) with
       | none => []
       | some company =>
         [{ id := "edge_" ++ d.id ++ "_belongs_to_" ++ company.id,
            source := d.id, target := company.id, type := "belongs_to",
            strength := 1, confirmed := true }]) ++
    d.contactIds.flatMap (fun contactId =>
      match contacts.find? (fun c => c.hubspotId == contactId) with
      | none => []
      | some c =>
        [{ id := "edge_" ++ c.id ++ "_"
              ++ (if c.role == "decision_maker" then "decision_maker_for" else "influencer_for")
              ++ "_" ++ d.id,
           source := c.id, target := d.id,
           type := if c.role == "decision_maker" then "decision_maker_for" else "influencer_for",
           strength := if c.role == "decision_maker" then 95/100 else 7/10,
           confirmed := true }]))

/-- `GraphService.loadFromHubSpot` (calendar.js lines 453-593); the interaction
history pass (lines 649-690) only appends interactions fetched from the
external collaborator and is not needed by the claims. -/
def loadFromHubSpot (contacts : List HSContact) (companies : List HSCompany)
    (deals : List HSDeal) (now : ℤ) : GraphState :=
  { nodes := buildHubSpotNodes contacts companies deals,
    edges := hubSpotContactEdges contacts companies now
      ++ hubSpotDealEdges deals companies contacts,
    interactions := [] }

/-- A LinkedIn relationship suggestion (calendar.js lines 620-636). -/
structure Suggestion where
  source : String
  target : String
  type : String
  strength : ℚ
  metadata : Option EdgeMeta := none
deriving DecidableEq

/-- The unconfirmed edge built from a suggestion (calendar.js lines 628-636). -/
def suggestionEdge (sg : Suggestion) : Edge :=
  { id := "edge_linkedin_" ++ sg.source ++ "_" ++ sg.target,
    source := sg.source, target := sg.target, type := sg.type,
    strength := sg.strength, confirmed := false, metadata := sg.metadata }

/-- The suggestion-insertion loop of `enrichWithLinkedIn`
(calendar.js lines 620-638): each suggestion is appended as an unconfirmed edge
unless an edge between the same unordered pair already exists. There is no
check that the endpoints reference existing nodes. -/
def addSuggestedEdges (edges : List Edge) (suggestions : List Suggestion) : List Edge :=
  suggestions.foldl (fun es sg =>
    if (es.find? (fun e => (e.source == sg.source && e.target == sg.target) ||
          (e.source == sg.target && e.target == sg.source))).isSome
    then es
    else es ++ [suggestionEdge sg]) edges

/-- The state change of the suggestion phase of `enrichWithLinkedIn` on the
graph store (the profile merge only copies collaborator fields onto nodes). -/
def enrichAddSuggestions (s : GraphState) (suggestions : List Suggestion) : GraphState :=
  { s with edges := addSuggestedEdges s.edges suggestions }

/-! ## Graph query engine: getGraphData (calendar.js lines 1031-1071) -/

/-- The filter argument of `getGraphData`. -/
structure GraphFilter where
  accountId : Option String := none
  dealId : Option String := none
  minInfluence : Option ℚ := none
deriving DecidableEq

/-- The `{nodes, edges}` object `getGraphData` returns. -/
structure GraphData where
  nodes : List Node
  edges : List Edge
deriving DecidableEq

/-- The `filter.accountId` stage of `getGraphData` (calendar.js lines
1036-1047); by JS truthiness a missing or empty id skips the stage. -/
def applyAccountFilter (g : GraphData) (accountId : Option String) : GraphData :=
  match jsStr accountId with
  | none => g
  | some aid =>
    let accountContacts :=
      (g.edges.filter (fun e => e.target == aid && e.type == "works_at")).map (fun e => e.source)
    { nodes := g.nodes.filter (fun n => accountContacts.contains n.id || n.id == aid),
      edges := g.edges.filter (fun e => accountContacts.contains e.source ||
        accountContacts.contains e.target || e.source == aid || e.target == aid) }

/-- The `filter.dealId` stage of `getGraphData` (calendar.js lines 1049-1060). -/
def applyDealFilter (g : GraphData) (dealId : Option String) : GraphData :=
  match jsStr dealId with
  | none => g
  | some did =>
    let dealContacts :=
      (g.edges.filter (fun e => e.target == did && strContains e.type "deal")).map (fun e => e.source)
    { nodes := g.nodes.filter (fun n => dealContacts.contains n.id || n.id == did),
      edges := g.edges.filter (fun e => dealContacts.contains e.source ||
        dealContacts.contains e.target || e.source == did || e.target == did) }

/-- The `filter.minInfluence` stage of `getGraphData` (calendar.js lines
1062-1068); by JS truthiness the threshold 0 skips the stage. Only this stage
re-filters edges against the surviving node ids. -/
def applyMinInfluenceFilter : GraphData → Option ℚ → GraphData
  | g, none => g
  | g, some m =>
    if m = 0 then g
    else
      let nodes := g.nodes.filter (fun n =>
        n.type != "contact" || decide (m ≤ n.influenceScore))
      let nodeIds := nodes.map (fun n => n.id)
      { nodes := nodes,
        edges := g.edges.filter (fun e =>
          nodeIds.contains e.source && nodeIds.contains e.target) }

/-- `GraphService.getGraphData` (calendar.js lines 1031-1071): the three filter
stages applied in source order. -/
def getGraphData (s : GraphState) (filter : GraphFilter) : GraphData :=
  applyMinInfluenceFilter
    (applyDealFilter (applyAccountFilter ⟨s.nodes, s.edges⟩ filter.accountId) filter.dealId)
    filter.minInfluence

/-! ## Path finding: findPath (calendar.js lines 1104-1135)

The JS breadth-first search loops over a growing queue; termination holds
because every queue entry after the first is an edge endpoint and each loop
iteration either shortens the queue or enlarges the visited set, which is
bounded by the finite candidate set. The Lean embedding carries that candidate
set and the queue-membership fact as arguments so the recursion is
well-founded by the measure below. -/

/-- Non-structural neighbor ids of `currentId` (calendar.js lines 1119-1125). -/
def neighborsOf (edges : List Edge) (currentId : String) : List String :=
  (edges.filter (fun e =>
    (e.source == currentId || e.target == currentId) &&
    e.type != "works_at" && e.type != "belongs_to")).map
    (fun e => if e.source == currentId then e.target else e.source)

/-- Every edge endpoint plus the BFS start: an upper bound on the ids that can
ever enter the queue. -/
def endpointCand (edges : List Edge) (sourceId : String) : Finset String :=
  insert sourceId (edges.foldr (fun e acc => insert e.source (insert e.target acc)) ∅)

/-- The `while (queue.length > 0)` loop of `findPath` (calendar.js lines
1108-1132), returning the id path. Queue entries pair an id with the path that
reached it; `hcand` and `hq` are the termination bookkeeping described above. -/
def bfsLoop (edges : List Edge) (targetId : String) (maxDepth : ℕ) (cand : Finset String)
    (hcand : ∀ e ∈ edges, e.source ∈ cand ∧ e.target ∈ cand)
    (queue : List (String × List String)) (visited : Finset String)
    (hq : ∀ p ∈ queue, p.1 ∈ cand) : Option (List String) :=
  match queue with
  | [] => none
  | (currentId, path) :: rest =>
    if currentId = targetId then some path
    else if maxDepth < path.length then
      bfsLoop edges targetId maxDepth cand hcand rest visited
        (fun p hp => hq p (List.mem_cons_of_mem _ hp))
    else if hvis : currentId ∈ visited then
      bfsLoop edges targetId maxDepth cand hcand rest visited
        (fun p hp => hq p (List.mem_cons_of_mem _ hp))
    else
      bfsLoop edges targetId maxDepth cand hcand
        (rest ++ ((neighborsOf edges currentId).filter (fun n => decide (n ∉ visited))).map
          (fun n => (n, path ++ [n])))
        (insert currentId visited)
        (by
          intro p hp
          rcases List.mem_append.1 hp with hp | hp
          · exact hq p (List.mem_cons_of_mem _ hp)
          · rcases List.mem_map.1 hp with ⟨n, hn, rfl⟩
            have hn2 : n ∈ neighborsOf edges currentId := List.mem_of_mem_filter hn
            rcases List.mem_map.1 hn2 with ⟨e, he, rfl⟩
            have heE : e ∈ edges := List.mem_of_mem_filter he
            by_cases hse : (e.source == currentId) = true
            · rw [if_pos hse]
              exact (hcand e heE).2
            · rw [if_neg hse]
              exact (hcand e heE).1)
termination_by (cand \ visited).card * (edges.length + 1) + queue.length
decreasing_by
  · simp only [List.length_cons]
    exact Nat.add_lt_add_left (Nat.lt_succ_self _) _
  · simp only [List.length_cons]
    exact Nat.add_lt_add_left (Nat.lt_succ_self _) _
  · have hcur : currentId ∈ cand := hq (currentId, path) (List.mem_cons_self _ _)
    have hcard : (cand \ insert currentId visited).card + 1 ≤ (cand \ visited).card := by
      have hsub : cand \ insert currentId visited ⊂ cand \ visited := by
        apply Finset.ssubset_iff_of_subset
          (Finset.sdiff_subset_sdiff le_rfl (Finset.subset_insert _ _)) |>.mpr
        exact ⟨currentId, Finset.mem_sdiff.mpr ⟨hcur, hvis⟩, by simp⟩
      exact Finset.card_lt_card hsub
    have hlen : (((neighborsOf edges currentId).filter (fun n => decide (n ∉ visited))).map
        (fun n => (n, path ++ [n]))).length ≤ edges.length := by
      rw [List.length_map]
      refine le_trans (List.length_filter_le _ _) ?_
      unfold neighborsOf
      rw [List.length_map]
      exact List.length_filter_le _ _
    have hmul := Nat.mul_le_mul_right (edges.length + 1) hcard
    rw [Nat.succ_mul] at hmul
    rw [List.length_append, List.length_cons]
    linarith

/-- `GraphService.findPath` (calendar.js lines 1104-1135): breadth-first search
from `sourceId` over non-structural edges; the returned id path is mapped
through node lookup exactly as the JS maps ids with `nodes.find`. -/
def findPath (nodes : List Node) (edges : List Edge) (sourceId targetId : String)
    (maxDepth : ℕ := 3) : Option (List (Option Node)) :=
  (bfsLoop edges targetId maxDepth (endpointCand edges sourceId)
    (by
      have key : ∀ (l : List Edge), ∀ x ∈ l,
          x.source ∈ l.foldr (fun e acc => insert e.source (insert e.target acc))
            (∅ : Finset String) ∧
          x.target ∈ l.foldr (fun e acc => insert e.source (insert e.target acc))
            (∅ : Finset String) := by
        intro l
        induction l with
        | nil => intro x hx; simp at hx
        | cons a t ih =>
          intro x hx
          rcases List.mem_cons.1 hx with h | h
          · subst h
            exact ⟨Finset.mem_insert_self _ _,
              Finset.mem_insert_of_mem (Finset.mem_insert_self _ _)⟩
          · obtain ⟨h1, h2⟩ := ih x h
            exact ⟨Finset.mem_insert_of_mem (Finset.mem_insert_of_mem h1),
              Finset.mem_insert_of_mem (Finset.mem_insert_of_mem h2)⟩
      intro e he
      unfold endpointCand
      exact ⟨Finset.mem_insert_of_mem (key _ e he).1,
        Finset.mem_insert_of_mem (key _ e he).2⟩)
    [(sourceId, [sourceId])] ∅
    (by
      intro p hp
      have hp2 : p = (sourceId, [sourceId]) := by simpa using hp
      subst hp2
      unfold endpointCand
      exact Finset.mem_insert_self _ _)).map
    (fun path => path.map (fun id => nodes.find? (fun n => n.id == id)))

/-- One non-structural edge joins `a` and `b` (in either direction). -/
def Adjacent (edges : List Edge) (a b : String) : Prop :=
  ∃ e ∈ edges, (e.type ≠ "works_at" ∧ e.type ≠ "belongs_to") ∧
    ((e.source = a ∧ e.target = b) ∨ (e.target = a ∧ e.source = b))

/-- `IsWalk edges start b p` means `p` lists the nodes of a walk from `start`
to `b` over non-structural edges; a walk on `k+1` nodes makes `k` hops. -/
inductive IsWalk (edges : List Edge) (start : String) : String → List String → Prop
  | single : IsWalk edges start start [start]
  | step {b c : String} {p : List String} :
      IsWalk edges start b p → Adjacent edges b c → IsWalk edges start c (p ++ [c])

/-! ## Org chart: getOrgChart (calendar.js lines 1305-1357)

The JS builds a plain object keyed by contact id. Reading a property of an
entry that does not exist throws a TypeError; that failure is modelled with
`Option` (`none` = thrown). The level recursion carries a per-call visited set,
which also provides the termination measure. -/

/-- Hierarchy entry (calendar.js lines 1314-1320). -/
structure OrgEntry where
  contact : Node
  reportsTo : Option String := none
  manages : List String := []
  level : ℕ := 0
deriving DecidableEq

/-- JS object property read on the hierarchy. -/
def objGet (h : List (String × OrgEntry)) (k : String) : Option OrgEntry :=
  (h.find? (fun p => p.1 == k)).map (fun p => p.2)

/-- JS object property write: replace in place when the key exists, else append
(JS objects keep insertion order of keys). -/
def objSet (h : List (String × OrgEntry)) (k : String) (v : OrgEntry) :
    List (String × OrgEntry) :=
  if h.any (fun p => p.1 == k) then h.map (fun p => if p.1 == k then (k, v) else p)
  else h ++ [(k, v)]

/-- Key set of the hierarchy object, the termination measure domain. -/
def orgKeys (h : List (String × OrgEntry)) : Finset String :=
  h.foldr (fun p acc => insert p.1 acc) ∅

/-- `GraphService.getAccountContacts` (calendar.js lines 1076-1082). -/
def getAccountContacts (s : GraphState) (accountId : String) : List Node :=
  let contactIds := (s.edges.filter (fun e =>
    e.target == accountId && e.type == "works_at")).map (fun e => e.source)
  s.nodes.filter (fun n => contactIds.contains n.id)

/-- One org edge applied to the hierarchy (calendar.js lines 1323-1337), with
the exact JS read/write order; a read of a missing entry is the TypeError. -/
def applyOrgEdge (h : List (String × OrgEntry)) (e : Edge) :
    Option (List (String × OrgEntry)) :=
  if e.type == "reports_to" then
    match objGet h e.source with
    | none => none
    | some srcEntry =>
      let h1 := objSet h e.source { srcEntry with reportsTo := some e.target }
      match objGet h1 e.target with
      | none => none
      | some tgtEntry =>
        if tgtEntry.manages.contains e.source then some h1
        else some (objSet h1 e.target
          { tgtEntry with manages := tgtEntry.manages ++ [e.source] })
  else
    match objGet h e.source with
    | none => none
    | some srcEntry =>
      let h1 := if srcEntry.manages.contains e.target then h
        else objSet h e.source { srcEntry with manages := srcEntry.manages ++ [e.target] }
      match objGet h1 e.target with
      | none => none
      | some tgtEntry => some (objSet h1 e.target { tgtEntry with reportsTo := some e.source })

/-- The `orgEdges.forEach` loop (calendar.js lines 1323-1337) with failure
propagation. -/
def applyOrgEdges (h : List (String × OrgEntry)) : List Edge →
    Option (List (String × OrgEntry))
  | [] => some h
  | e :: rest =>
    match applyOrgEdge h e with
    | none => none
    | some h2 => applyOrgEdges h2 rest

/-- `calculateLevels` (calendar.js lines 1340-1350): a revisited contact is
level 0, a contact with no `reportsTo` pointer is level 0, otherwise one more
than the level of the manager; looking up a missing entry is the TypeError. -/
def calculateLevels (h : List (String × OrgEntry)) (contactId : String)
    (visited : Finset String) : Option ℕ :=
  if contactId ∈ visited then some 0
  else
    match hf : objGet h contactId with
    | none => none
    | some entry =>
      match entry.reportsTo with
      | none => some 0
      | some mgr => (calculateLevels h mgr (insert contactId visited)).map (fun l => l + 1)
termination_by (orgKeys h \ visited).card
decreasing_by
  have hmem : contactId ∈ orgKeys h := by
    unfold objGet at hf
    rcases Option.map_eq_some'.1 hf with ⟨q, hq, _⟩
    have hq1 : q.1 = contactId := by simpa using List.find?_some hq
    have hqmem : q ∈ h := List.mem_of_find?_eq_some hq
    have key : ∀ (l : List (String × OrgEntry)), ∀ x ∈ l, x.1 ∈ orgKeys l := by
      intro l
      induction l with
      | nil => intro x hx; simp at hx
      | cons a t ih =>
        intro x hx
        rcases List.mem_cons.1 hx with hxx | hxx
        · subst hxx
          exact Finset.mem_insert_self _ _
        · exact Finset.mem_insert_of_mem (ih x hxx)
    rw [← hq1]
    exact key h q hqmem
  have hsub : orgKeys h \ insert contactId visited ⊂ orgKeys h \ visited := by
    apply Finset.ssubset_iff_of_subset
      (Finset.sdiff_subset_sdiff le_rfl (Finset.subset_insert _ _)) |>.mpr
    exact ⟨contactId, Finset.mem_sdiff.mpr ⟨hmem, by assumption⟩, by simp⟩
  exact Finset.card_lt_card hsub

/-- The `Object.keys(hierarchy).forEach` level-assignment pass (calendar.js
lines 1352-1354); the JS mutates `level` in place, and `calculateLevels` never
reads `level`, so traversing the finished hierarchy is equivalent. -/
def assignLevels (h : List (String × OrgEntry)) : List (String × OrgEntry) →
    Option (List (String × OrgEntry))
  | [] => some []
  | p :: rest =>
    match calculateLevels h p.1 ∅ with
    | none => none
    | some l =>
      match assignLevels h rest with
      | none => none
      | some rest2 => some ((p.1, { p.2 with level := l }) :: rest2)

/-- `GraphService.getOrgChart` (calendar.js lines 1305-1357). -/
def getOrgChart (s : GraphState) (accountId : String) :
    Option (List (String × OrgEntry)) :=
  let contacts := getAccountContacts s accountId
  let orgEdges := s.edges.filter (fun e =>
    contacts.any (fun c => c.id == e.source || c.id == e.target) &&
    (e.type == "reports_to" || e.type == "manages"))
  let hierarchy := contacts.foldl (fun h c => objSet h c.id { contact := c }) []
  match applyOrgEdges hierarchy orgEdges with
  | none => none
  | some h2 => assignLevels h2 h2

/-! ## Deal health orchestrator (src/CDN/js/meeting-service.js lines 287-699) -/

/-- Deal record as consumed by `SalesOrchestratorService`; `lastActivity` and
`metadata.stageEntryDate` as epoch ms. -/
structure Deal where
  id : String
  name : String := ""
  stage : String := ""
  probability : ℚ := 0
  value : ℚ := 0
  contacts : List String := []
  lastActivity : Option ℤ := none
  stageEntryDate : Option ℤ := none
deriving DecidableEq

/-- The `avgStageDurations` table (meeting-service.js lines 290-297) combined
with the `|| 7` default of its lookups (lines 467, 652): an unknown stage and
the falsy `closed` entry (0) both read as 7. -/
def avgStageDuration (stage : String) : ℚ :=
  let v : Option ℚ :=
    if stage == "new" then some 3
    else if stage == "contacted" then some 5
    else if stage == "qualified" then some 7
    else if stage == "negotiation" then some 14
    else if stage == "proposal" then some 10
    else if stage == "closed" then some 0
    else none
  match v with
  | none => 7
  | some x => if x = 0 then 7 else x

/-- `SalesOrchestratorService.calculateDaysInStage` (meeting-service.js lines
334-347): 0 for a missing or closed stage, otherwise the floor of the day
difference from `metadata.stageEntryDate`, falling back to `lastActivity`,
falling back to now. -/
def calculateDaysInStage (deal : Deal) (now : ℤ) : ℤ :=
  if deal.stage = "" ∨ deal.stage = "closed" then 0
  else
    let stageEntryDate := deal.stageEntryDate.getD (deal.lastActivity.getD now)
    Int.fdiv (now - stageEntryDate) 86400000

/-- Result record of `detectStalling` (meeting-service.js lines 470-475). -/
structure StallingInfo where
  isStalling : Bool
  daysInStage : ℤ
  threshold : ℚ
  stage : String
deriving DecidableEq

/-- `SalesOrchestratorService.detectStalling` (meeting-service.js lines
465-476): stalling iff days in the current stage exceed 1.5 times the average
stage duration. -/
def detectStalling (deal : Deal) (now : ℤ) : StallingInfo :=
  { isStalling := decide (avgStageDuration deal.stage * (3/2)
      < (calculateDaysInStage deal now : ℚ)),
    daysInStage := calculateDaysInStage deal now,
    threshold := avgStageDuration deal.stage * (3/2),
    stage := deal.stage }

/-- The C8 scenario deal: stage `qualified`, last activity 12 days before now. -/
def qualifiedDeal (now : ℤ) : Deal :=
  { id := "d1", name := "deal", stage := "qualified",
    lastActivity := some (now - 12 * 86400000) }

/-- JS `a || b` on plain strings (empty is falsy). -/
def strOr (a b : String) : String := if a = "" then b else a

/-- JS `s.split(' ')[0]`: the prefix before the first space. -/
def firstWord (s : String) : String := String.mk (s.data.takeWhile (fun c => !(c == ' ')))

/-- The apostrophe character as a string; the JS copy texts below contain it. -/
def apos : String := String.mk [Char.ofNat 39]

/-- Activity record from the session-storage log (`getDealActivities`); the
`metadata` sub-object fields are flattened with JS-falsy defaults. -/
structure Activity where
  type : String
  date : Option ℤ := none
  action : String := ""
  emailOpened : Bool := false
  opens : ℕ := 0
  metaLinkUrl : String := ""
  metaUrl : String := ""
  url : String := ""
  linkClicked : String := ""
  debrief : String := ""
  summary : String := ""
deriving DecidableEq

/-- The telemetry snapshot `telemetryService.getRecentEngagement` returns
(an external collaborator; `none` models an absent service or a thrown read). -/
structure Telemetry where
  emailsOpened : ℕ := 0
  emailsClicked : ℕ := 0
  documentsViewed : ℕ := 0
  calendarAccepted : ℕ := 0
deriving DecidableEq

/-- JS `telemetryValue || fallback` where both 0 and `undefined` are falsy. -/
def jsOrNat (x : Option ℕ) (fallback : ℕ) : ℕ :=
  match x with
  | none => fallback
  | some v => if v = 0 then fallback else v

/-- Result record of `detectMomentum` (meeting-service.js lines 452-459). -/
structure Momentum where
  emailOpens : ℕ
  emailClicks : ℕ
  pricingClicks : ℕ
  proposalOpens : ℕ
  meetingAccepted : Bool
  hasMomentum : Bool
deriving DecidableEq

/-- The `activityDate < last24Hours` guard (an absent date fails it). -/
def within24h (now : ℤ) (date : Option ℤ) : Bool :=
  match date with
  | none => false
  | some d => decide (now - 86400000 ≤ d)

/-- `SalesOrchestratorService.detectMomentum` (meeting-service.js lines
381-460). Telemetry counters are preferred but fall back to activity counts
when absent or zero (JS `||`); pricing clicks come from activities only. -/
def detectMomentum (activities : List Activity) (telemetry : Option Telemetry)
    (now : ℤ) : Momentum :=
  let recentEmailOpens := jsOrNat (telemetry.map (fun t => t.emailsOpened))
    (activities.filter (fun a =>
      (a.type == "email" || a.type == "email_open") && within24h now a.date &&
      (a.emailOpened || decide (0 < a.opens) || a.type == "email_open"))).length
  let recentEmailClicks := jsOrNat (telemetry.map (fun t => t.emailsClicked))
    (activities.filter (fun a =>
      a.type == "email_click" && within24h now a.date)).length
  let pricingClicks := (activities.filter (fun a =>
    (a.type == "email_click" || a.type == "link") && within24h now a.date &&
    (strContains (strLower (strOr a.metaLinkUrl (strOr a.metaUrl a.url))) "pricing" ||
     strContains (strLower (strOr a.metaLinkUrl (strOr a.metaUrl a.url))) "price" ||
     a.linkClicked == "pricing"))).length
  let proposalOpens := jsOrNat (telemetry.map (fun t => t.documentsViewed))
    (activities.filter (fun a =>
      a.type == "document_view" && within24h now a.date &&
      (strContains (strLower (strOr a.debrief a.summary)) "proposal" ||
       strContains (strLower (strOr a.debrief a.summary)) "opened" ||
       strContains (strLower a.metaLinkUrl) "proposal" ||
       strContains (strLower a.metaLinkUrl) "document" ||
       a.type == "document_view"))).length
  let meetingAccepted := (match telemetry with
    | some t => decide (0 < t.calendarAccepted)
    | none => false) ||
    activities.any (fun a =>
      a.type == "calendar_interaction" && within24h now a.date && a.action == "accepted")
  { emailOpens := recentEmailOpens, emailClicks := recentEmailClicks,
    pricingClicks := pricingClicks, proposalOpens := proposalOpens,
    meetingAccepted := meetingAccepted,
    hasMomentum := decide (2 < recentEmailOpens) || decide (0 < recentEmailClicks) ||
      decide (1 < pricingClicks) || decide (0 < proposalOpens) || meetingAccepted }

/-- Insertion step of the JS `Array.prototype.sort` model. -/
def insertSorted {α : Type} (le : α → α → Bool) (a : α) : List α → List α
  | [] => [a]
  | b :: t => if le a b then a :: b :: t else b :: insertSorted le a t

/-- JS `Array.prototype.sort` with a comparator, modelled as insertion sort
(the claims only rely on membership, which any comparison sort preserves). -/
def sortWith {α : Type} (le : α → α → Bool) : List α → List α
  | [] => []
  | a :: t => insertSorted le a (sortWith le t)

/-- `calculateLastContactDays` (meeting-service.js lines 352-376): with no
activities, fall back to `deal.lastActivity` or the sentinel 999; otherwise
take the most recent call / email / meeting activity, or 999 when none. -/
def calculateLastContactDays (deal : Deal) (activities : List Activity) (now : ℤ) : ℤ :=
  if activities.isEmpty then
    match deal.lastActivity with
    | some la => Int.fdiv (now - la) 86400000
    | none => 999
  else
    match (sortWith (fun a b => decide (b.date.getD 0 ≤ a.date.getD 0))
        (activities.filter (fun a =>
          (a.type == "call" || a.type == "email" || a.type == "meeting")
            && a.date.isSome))).head? with
    | none => 999
    | some a => Int.fdiv (now - a.date.getD 0) 86400000

/-- Result record of `detectGhosting` (meeting-service.js lines 485-488). -/
structure GhostingInfo where
  isGhosting : Bool
  lastContactDays : ℤ
deriving DecidableEq

/-- `SalesOrchestratorService.detectGhosting` (meeting-service.js lines
481-489). -/
def detectGhosting (deal : Deal) (activities : List Activity) (now : ℤ) : GhostingInfo :=
  { isGhosting := decide (7 < calculateLastContactDays deal activities now)
      && !(deal.stage == "closed"),
    lastContactDays := calculateLastContactDays deal activities now }

/-- `SalesOrchestratorService.calculateUrgencyScore` (meeting-service.js lines
494-523): base from probability, momentum boost only from opens / pricing /
proposal counters, stalling and ghosting penalties, high-value boost, rounded
and clamped to `[1, 10]`. -/
def calculateUrgencyScore (deal : Deal) (momentum : Momentum)
    (stalling : StallingInfo) (ghosting : GhostingInfo) : ℤ :=
  let s1 : ℚ := 1 + ((⌊deal.probability / 10⌋ : ℤ) : ℚ)
  let s2 : ℚ := if momentum.hasMomentum then
      s1 + momentum.emailOpens * (1/2) + momentum.pricingClicks * 1
        + momentum.proposalOpens * (3/2)
    else s1
  let s3 : ℚ := if stalling.isStalling then
      s2 + min ((stalling.daysInStage : ℚ) / 10) 3 else s2
  let s4 : ℚ := if ghosting.isGhosting then
      s3 + min ((ghosting.lastContactDays : ℚ) / 7) 2 else s3
  let s5 : ℚ := if 200000 < deal.value then s4 + 1 else s4
  min (max (jsRound s5) 1) 10

/-- A recommended action (meeting-service.js lines 536-600). -/
structure SmartAction where
  action_type : String
  target_name : String
  rationale : String
  draft_content : String
deriving DecidableEq

/-- `SalesOrchestratorService.generateSmartActions` (meeting-service.js lines
528-601), with the JS copy texts reproduced (apostrophes via `apos`). -/
def generateSmartActions (deal : Deal) (activities : List Activity) (momentum : Momentum)
    (stalling : StallingInfo) (ghosting : GhostingInfo) (now : ℤ) : List SmartAction :=
  let primaryContact := strOr (deal.contacts.headD "") "the team"
  let first := firstWord primaryContact
  let hot : List SmartAction :=
    if momentum.hasMomentum then
      if 0 < momentum.proposalOpens then
        [{ action_type := "EMAIL", target_name := primaryContact,
           rationale := "Proposal was opened - follow up to answer questions and move forward",
           draft_content := "Hi " ++ first ++ ", I noticed you opened the proposal. I"
             ++ apos ++ "d love to discuss any questions you have and help move this forward. Are you available for a quick call this week?" }]
      else if 0 < momentum.pricingClicks then
        [{ action_type := "EMAIL", target_name := primaryContact,
           rationale := "Pricing page was viewed - they" ++ apos ++ "re evaluating cost",
           draft_content := "Hi " ++ first ++ ", I see you checked out our pricing. I"
             ++ apos ++ "d be happy to discuss custom options that might work better for your needs. Can we schedule a call?" }]
      else if 2 < momentum.emailOpens then
        [{ action_type := "CALL", target_name := primaryContact,
           rationale := "High email engagement - they" ++ apos ++ "re actively reading your messages",
           draft_content := "Schedule a call to capitalize on their interest" }]
      else []
    else []
  let ghost : List SmartAction :=
    if ghosting.isGhosting then
      [{ action_type := "EMAIL", target_name := primaryContact,
         rationale := "No contact in " ++ toString ghosting.lastContactDays
           ++ " days - send break-up email to re-engage",
         draft_content := "Hi " ++ first ++ ", I wanted to check in one last time. If you"
           ++ apos ++ "re no longer interested, I completely understand - just let me know. If you are still considering us, I"
           ++ apos ++ "d love to discuss how we can help." }] ++
      (if 50 < deal.probability then
        [{ action_type := "LINKEDIN", target_name := primaryContact,
           rationale := "High-value deal going cold - try LinkedIn outreach",
           draft_content := "Send a personalized LinkedIn message to re-engage" }]
       else [])
    else []
  let stall : List SmartAction :=
    if stalling.isStalling then
      [{ action_type := "CALL", target_name := primaryContact,
         rationale := "Stuck in " ++ stalling.stage ++ " for "
           ++ toString stalling.daysInStage ++ " days - need to unblock",
         draft_content := "Schedule a call to identify blockers and move "
           ++ deal.name ++ " forward" }]
    else []
  let base := hot ++ ghost ++ stall
  let actions := base ++
    (if base.isEmpty && !(deal.stage == "closed")
        && decide (3 < calculateLastContactDays deal activities now) then
      [{ action_type := "EMAIL", target_name := primaryContact,
         rationale := "Regular follow-up to maintain momentum",
         draft_content := "Hi " ++ first ++ ", I wanted to check in on " ++ deal.name
           ++ ". How are things progressing on your end?" }]
     else [])
  actions.take 3

/-- The `if (signalReason)` string of the hot-lead push (meeting-service.js
lines 627-634). -/
def signalReason (momentum : Momentum) : String :=
  if 0 < momentum.proposalOpens then
    "Opened proposal " ++ toString momentum.proposalOpens ++ "x in last 24 hours"
  else if 0 < momentum.pricingClicks then
    "Clicked pricing page " ++ toString momentum.pricingClicks ++ "x"
  else if 2 < momentum.emailOpens then
    "Opened " ++ toString momentum.emailOpens ++ " emails in last 24 hours"
  else ""

/-- Hot-lead entry (meeting-service.js lines 638-643). -/
structure HotLead where
  deal_id : String
  lead_name : String
  signal_reason : String
  urgency_score : ℤ
deriving DecidableEq

/-- The hot-lead push of one deal (meeting-service.js lines 626-645): requires
`hasMomentum` and a truthy (nonempty) signal reason. -/
def dealHotLead (deal : Deal) (momentum : Momentum) (stalling : StallingInfo)
    (ghosting : GhostingInfo) : Option HotLead :=
  if momentum.hasMomentum then
    if signalReason momentum == "" then none
    else
      some
        { deal_id := deal.id, lead_name := deal.name,
          signal_reason := signalReason momentum,
          urgency_score := calculateUrgencyScore deal momentum stalling ghosting }
  else none

/-- Risk entry (meeting-service.js lines 649-668). -/
structure Risk where
  deal_id : String
  deal_name : String
  issue : String
  suggested_fix : String
deriving DecidableEq

/-- The risk pushes of one deal (meeting-service.js lines 648-668). -/
def dealRisks (deal : Deal) (stalling : StallingInfo) (ghosting : GhostingInfo) :
    List Risk :=
  (if stalling.isStalling then
    [{ deal_id := deal.id, deal_name := deal.name,
       issue := "Stuck in " ++ stalling.stage ++ " stage for "
         ++ toString stalling.daysInStage ++ " days (avg: "
         ++ toString (avgStageDuration stalling.stage) ++ " days)",
       suggested_fix := if 20 < stalling.daysInStage then
         "Send break-up email to re-engage or close" else "Schedule call to identify blockers" }]
   else []) ++
  (if ghosting.isGhosting then
    [{ deal_id := deal.id, deal_name := deal.name,
       issue := "No contact in " ++ toString ghosting.lastContactDays
         ++ " days - deal going cold",
       suggested_fix := if 14 < ghosting.lastContactDays then
         "Send break-up email" else "Reach out via LinkedIn or email" }]
   else [])

/-- One deal of the `analyze` input: the deal record plus its session-storage
activity log and its telemetry snapshot (both supplied by external
collaborators). -/
structure DealInput where
  deal : Deal
  activities : List Activity
  telemetry : Option Telemetry
deriving DecidableEq

/-- The `{hot_leads, risks, smart_actions}` result of `analyze`. -/
structure AnalysisResult where
  hot_leads : List HotLead
  risks : List Risk
  smart_actions : List SmartAction
deriving DecidableEq

/-- `SalesOrchestratorService.analyze` (meeting-service.js lines 607-699):
closed deals are dropped, each active deal contributes its hot lead, risks and
smart actions, hot leads sort by descending urgency, risks by descending deal
value (looked up by id among the active deals), and each list is truncated
to 5. -/
def analyze (input : List DealInput) (now : ℤ) : AnalysisResult :=
  { hot_leads := (sortWith (fun a b => decide (b.urgency_score ≤ a.urgency_score))
      ((input.filter (fun di => !(di.deal.stage == "closed"))).filterMap (fun di =>
        dealHotLead di.deal (detectMomentum di.activities di.telemetry now)
          (detectStalling di.deal now)
          (detectGhosting di.deal di.activities now)))).take 5,
    risks := (sortWith (fun a b =>
      decide ((((input.filter (fun di => !(di.deal.stage == "closed"))).find?
          (fun di => di.deal.id == b.deal_id)).map (fun di => di.deal.value)).getD 0
        ≤ (((input.filter (fun di => !(di.deal.stage == "closed"))).find?
          (fun di => di.deal.id == a.deal_id)).map (fun di => di.deal.value)).getD 0))
      ((input.filter (fun di => !(di.deal.stage == "closed"))).flatMap (fun di =>
        dealRisks di.deal (detectStalling di.deal now)
          (detectGhosting di.deal di.activities now)))).take 5,
    smart_actions := ((input.filter (fun di => !(di.deal.stage == "closed"))).flatMap
      (fun di => generateSmartActions di.deal di.activities
        (detectMomentum di.activities di.telemetry now)
        (detectStalling di.deal now)
        (detectGhosting di.deal di.activities now) now)).take 5 }

/-! ## Witness fixtures -/

/-- Fixture for the C1 witness: a single bare contact node. -/
def c1Node : Node := { id := "c1", type := "contact" }

/-- Fixture store holding only `c1Node`. -/
def c1State : GraphState := { nodes := [c1Node], edges := [], interactions := [] }

/-- The metadata literal of the C7 scenario. -/
def meetingMeta : Metadata := { completed := some true }

/-- Fixture edge of strength 0.5 for the C7 scenario. -/
def c7Edge : Edge :=
  { id := "e1", source := "c1", target := "c2", type := "mutual_connection", strength := 1/2 }

/-- Fixture store for the C7 scenario. -/
def c7State : GraphState := { nodes := [], edges := [c7Edge], interactions := [] }

/-- A suggestion whose endpoints exist in no store, for the C3 counterexample. -/
def ghostSuggestion : Suggestion :=
  { source := "ghost1", target := "ghost2", type := "former_colleague", strength := 1/2 }

/-- Imported contact that reports to `hsB`, for the C3 witness. -/
def hsA : HSContact := { id := "a", reportsTo := some "b" }

/-- Imported contact with no references, for the C3 witness. -/
def hsB : HSContact := { id := "b" }

/-- The `reports_to` edge the importer builds from `hsA` and `hsB` at clock 0. -/
def hsEdgeAB : Edge :=
  { id := "edge_a_reports_b", source := "a", target := "b", type := "reports_to",
    strength := 9/10, confirmed := true,
    metadata := some { source := some "hubspot", lastVerified := some 0 } }

/-- Account node for the C4 fixtures. -/
def accNode : Node := { id := "acc", type := "account" }

/-- Contact employed at `accNode`, for the C4 counterexample. -/
def c4c1 : Node := { id := "c1", type := "contact" }

/-- Contact outside `accNode`, for the C4 counterexample. -/
def c4c2 : Node := { id := "c2", type := "contact" }

/-- Employment edge `c1 → acc` for the C4 counterexample. -/
def c4WorksEdge : Edge :=
  { id := "w1", source := "c1", target := "acc", type := "works_at", strength := 1 }

/-- Relationship edge `c1 → c2` leaving the account, for the C4 counterexample. -/
def c4MutualEdge : Edge :=
  { id := "m1", source := "c1", target := "c2", type := "mutual_connection", strength := 1/2 }

/-- Store for the C4 counterexample. -/
def c4State : GraphState :=
  { nodes := [c4c1, c4c2, accNode], edges := [c4WorksEdge, c4MutualEdge], interactions := [] }

/-- Filter selecting only `accountId = acc`, for the C4 counterexample. -/
def c4Filter : GraphFilter := { accountId := some "acc" }

/-- High-influence contact for the C4 witness. -/
def c4HiContact : Node := { id := "hi", type := "contact", influenceScore := 80 }

/-- Low-influence contact for the C4 witness. -/
def c4LoContact : Node := { id := "lo", type := "contact", influenceScore := 10 }

/-- Employment edge `hi → acc` for the C4 witness. -/
def c4HiWorksEdge : Edge :=
  { id := "w2", source := "hi", target := "acc", type := "works_at", strength := 1 }

/-- Store for the C4 witness. -/
def c4WitnessState : GraphState :=
  { nodes := [c4HiContact, c4LoContact, accNode], edges := [c4HiWorksEdge], interactions := [] }

/-- Filter with only a nonzero `minInfluence`, for the C4 witness. -/
def c4WitnessFilter : GraphFilter := { minInfluence := some 50 }

/-- Contact `a` of the cyclic C9 fixture. -/
def caNode : Node := { id := "a", type := "contact" }

/-- Contact `b` of the cyclic C9 fixture. -/
def cbNode : Node := { id := "b", type := "contact" }

/-- Store whose reporting graph is the 2-cycle `a reports_to b reports_to a`. -/
def cyclicState : GraphState :=
  { nodes := [caNode, cbNode, accNode],
    edges :=
      [{ id := "wa", source := "a", target := "acc", type := "works_at", strength := 1 },
       { id := "wb", source := "b", target := "acc", type := "works_at", strength := 1 },
       { id := "ra", source := "a", target := "b", type := "reports_to", strength := 9/10 },
       { id := "rb", source := "b", target := "a", type := "reports_to", strength := 9/10 }],
    interactions := [] }

/-- Hierarchy entry of `a` after the org edges of `cyclicState` are applied. -/
def entryA : OrgEntry := { contact := caNode, reportsTo := some "b", manages := ["b"] }

/-- Hierarchy entry of `b` after the org edges of `cyclicState` are applied. -/
def entryB : OrgEntry := { contact := cbNode, reportsTo := some "a", manages := ["a"] }

/-- The hierarchy `getOrgChart cyclicState` builds before level assignment. -/
def cyclicH : List (String × OrgEntry) := [("a", entryA), ("b", entryB)]

/-- The finished org chart of `cyclicState`: the cycle truncates at the
revisited contact, so both contacts end at level 2. -/
def cyclicChart : List (String × OrgEntry) :=
  [("a", { entryA with level := 2 }), ("b", { entryB with level := 2 })]

/-- Hierarchy entry with no manager, for the C9 witness. -/
def soloEntry : OrgEntry := { contact := c1Node }

/-- One-contact hierarchy for the C9 witness. -/
def soloH : List (String × OrgEntry) := [("c1", soloEntry)]

/-- Deal for the C10 counterexample: active, mid probability, modest value. -/
def c10Deal : Deal :=
  { id := "dx", name := "DealX", stage := "new", probability := 50, value := 0 }

/-- A fresh email-click activity: the only momentum signal of the C10
counterexample. -/
def c10Click : Activity := { type := "email_click", date := some 0 }

/-- Deal for the C10 witness. -/
def c10PropDeal : Deal :=
  { id := "dp", name := "DealP", stage := "new", probability := 50, value := 0 }

/-- A fresh document view, which does create a hot lead. -/
def c10PropView : Activity := { type := "document_view", date := some 0 }

/-- The hot lead `analyze` produces for `c10PropDeal`. -/
def c10HotLead : HotLead :=
  { deal_id := "dp", lead_name := "DealP",
    signal_reason := signalReason (detectMomentum [c10PropView] none 0),
    urgency_score := calculateUrgencyScore c10PropDeal (detectMomentum [c10PropView] none 0)
      (detectStalling c10PropDeal 0) (detectGhosting c10PropDeal [c10PropView] 0) }

/-! ### C1: influence scores are integers in `[0, 100]`, deterministically -/

lemma roleScore_nonneg (title : String) : 0 ≤ roleScore title := Nat.zero_le _

lemma score_expr_nonneg (role d st rec cen : ℚ) (hrole : 0 ≤ role) (hd : 0 ≤ d)
    (hst : 0 ≤ st) (hrec : 0 ≤ rec) (hcen : 0 ≤ cen) :
    0 ≤ role + d + st + rec + cen := by positivity

lemma jsRound_nonneg {q : ℚ} (h : 0 ≤ q) : 0 ≤ jsRound q := by
  unfold jsRound
  have : (0:ℤ) = ⌊(0:ℚ)⌋ := by norm_num
  rw [this]
  exact Int.floor_le_floor (by linarith)

/-- C1. For every contact, the influence score computed by
`calculateContactInfluence` is an integer (return type `ℤ`) with
`0 ≤ score ≤ 100`; `calculateInfluenceScores` writes exactly that integer back
into the node; and recomputation over an identical snapshot (same nodes, edges,
interactions and clock value) returns the same score. -/
theorem influence_score_bounds_det :
    (∀ (s : GraphState) (now : ℤ) (cid : String),
      0 ≤ calculateContactInfluence s now cid ∧ calculateContactInfluence s now cid ≤ 100) ∧
    (∀ (s : GraphState) (now : ℤ) (n : Node),
      n ∈ (calculateInfluenceScores s now).nodes → n.type = "contact" →
      n.influenceScore = ((calculateContactInfluence s now n.id : ℤ) : ℚ) ∧
      ∃ k : ℤ, n.influenceScore = (k : ℚ) ∧ 0 ≤ k ∧ k ≤ 100) ∧
    (∀ (s t : GraphState) (nows nowt : ℤ) (cid : String), s = t → nows = nowt →
      calculateContactInfluence s nows cid = calculateContactInfluence t nowt cid) := by
  have hbounds : ∀ (s : GraphState) (now : ℤ) (cid : String),
      0 ≤ calculateContactInfluence s now cid ∧ calculateContactInfluence s now cid ≤ 100 := by
    intro s now cid
    unfold calculateContactInfluence
    cases hf : s.nodes.find? (fun n => n.id == cid) with
    | none => exact ⟨le_refl 0, by norm_num⟩
    | some contact =>
      by_cases hc : (contact.type != "contact") = true
      · simp only [hc, if_true]
        exact ⟨le_refl 0, by norm_num⟩
      · simp only [Bool.not_eq_true] at hc
        simp only [hc]
        refine ⟨le_min ?_ (by norm_num), min_le_right _ _⟩
        apply jsRound_nonneg
        have h1 : (0:ℚ) ≤ (roleScore contact.title : ℚ) := by positivity
        have h2 : ∀ (a : ℚ) (b : ℚ), 0 ≤ a → 0 ≤ b → (0:ℚ) ≤ min a b := fun a b ha hb => le_min ha hb
        refine score_expr_nonneg _ _ _ _ _ h1 (h2 _ _ (by positivity) (by norm_num))
          (h2 _ _ (by positivity) (by norm_num)) (h2 _ _ (by positivity) (by norm_num))
          (h2 _ _ (by positivity) (by norm_num))
  refine ⟨hbounds, ?_, ?_⟩
  · intro s now n hmem htype
    rcases List.mem_map.1 hmem with ⟨m, hm, rfl⟩
    by_cases hmc : (m.type == "contact") = true
    · constructor
      · simp [hmc]
      · exact ⟨calculateContactInfluence s now m.id, by simp [hmc],
          (hbounds s now m.id).1, (hbounds s now m.id).2⟩
    · exfalso
      have hfalse : (m.type == "contact") = false := by simpa using hmc
      rw [hfalse] at htype
      simp at htype
      rw [htype] at hfalse
      simp at hfalse
  · intro s t nows nowt cid hs hnow
    rw [hs, hnow]

/-- Witness for C1: instantiate every part of the theorem at a concrete store
and discharge the hypotheses there. -/
theorem influence_score_bounds_det_witness :
    (0 ≤ calculateContactInfluence c1State 0 "c1" ∧
      calculateContactInfluence c1State 0 "c1" ≤ 100) ∧
    ({ c1Node with influenceScore := ((calculateContactInfluence c1State 0 "c1" : ℤ) : ℚ) }.influenceScore
        = ((calculateContactInfluence c1State 0 ({ c1Node with influenceScore := ((calculateContactInfluence c1State 0 "c1" : ℤ) : ℚ) } : Node).id : ℤ) : ℚ) ∧
      ∃ k : ℤ, ({ c1Node with influenceScore := ((calculateContactInfluence c1State 0 "c1" : ℤ) : ℚ) } : Node).influenceScore = (k : ℚ) ∧ 0 ≤ k ∧ k ≤ 100) ∧
    calculateContactInfluence c1State 0 "c1" = calculateContactInfluence c1State 0 "c1" := by
  refine ⟨influence_score_bounds_det.1 c1State 0 "c1", ?_, ?_⟩
  · exact influence_score_bounds_det.2.1 c1State 0 _
      (by simp [calculateInfluenceScores, c1State, c1Node]) rfl
  · exact influence_score_bounds_det.2.2 c1State c1State 0 0 "c1" rfl rfl

/-! ### C6: the role-score component -/

/-- `listPrefix` computes the Mathlib prefix relation on character lists. -/
lemma listPrefix_iff (p l : List Char) : listPrefix p l = true ↔ p <+: l := by
  induction p generalizing l with
  | nil => simp [listPrefix]
  | cons a p ih =>
    cases l with
    | nil => simp [listPrefix]
    | cons b l => simp [listPrefix, List.cons_prefix_cons, ih]

/-- `listInfix` computes the Mathlib infix relation on character lists. -/
lemma listInfix_iff (p l : List Char) : listInfix p l = true ↔ p <:+: l := by
  induction l with
  | nil => simp [listInfix, List.isEmpty_iff]
  | cons b l ih =>
    simp [listInfix, Bool.or_eq_true, listPrefix_iff, ih, List.infix_cons_iff]

/-- The word director contains the word cto as a substring, so any string
containing director also contains cto. -/
lemma contains_director_cto (s : String) :
    strContains s "director" = true → strContains s "cto" = true := by
  intro h
  rw [strContains, listInfix_iff] at h ⊢
  exact List.IsInfix.trans ⟨['d','i','r','e'], ['r'], rfl⟩ h

/-- C6 counterexample. The claim states the role component contributes 5 points
when no keyword matches. For the title `Engineer` none of the keywords
`ceo, cto, cfo, vp, director, manager` (nor `other`) occurs in the lowercased
title, yet the role component is 0, not 5. -/
theorem roleScore_engineer_counterexample :
    roleScore "Engineer" = 0 ∧ roleScore "Engineer" ≠ 5 ∧
    strContains (strLower "Engineer") "ceo" = false ∧
    strContains (strLower "Engineer") "cto" = false ∧
    strContains (strLower "Engineer") "cfo" = false ∧
    strContains (strLower "Engineer") "vp" = false ∧
    strContains (strLower "Engineer") "director" = false ∧
    strContains (strLower "Engineer") "manager" = false ∧
    strContains (strLower "Engineer") "other" = false := by
  decide

/-- C6 (amended). The role component is decided by the first keyword match
against the lowercased title in order ceo 30, cto 25, cfo 25, vp 20,
director 15, manager 10, then the literal keyword `other` 5; a title matching
none of the seven keywords contributes 0 (not 5). Because the keyword
`director` contains the substring `cto`, any title matching `director` already
matched `cto`, so the director branch is unreachable and no title receives 15.
In particular a CTO title contributes 25 and a Manager title with no earlier
keyword contributes 10. -/
theorem roleScore_spec :
    (∀ title : String,
      (strContains (strLower title) "ceo" = true → roleScore title = 30) ∧
      (strContains (strLower title) "ceo" = false →
        strContains (strLower title) "cto" = true → roleScore title = 25) ∧
      (strContains (strLower title) "ceo" = false →
        strContains (strLower title) "cto" = false →
        strContains (strLower title) "cfo" = true → roleScore title = 25) ∧
      (strContains (strLower title) "ceo" = false →
        strContains (strLower title) "cto" = false →
        strContains (strLower title) "cfo" = false →
        strContains (strLower title) "vp" = true → roleScore title = 20) ∧
      (strContains (strLower title) "ceo" = false →
        strContains (strLower title) "cto" = false →
        strContains (strLower title) "cfo" = false →
        strContains (strLower title) "vp" = false →
        strContains (strLower title) "director" = true → roleScore title = 15) ∧
      (strContains (strLower title) "ceo" = false →
        strContains (strLower title) "cto" = false →
        strContains (strLower title) "cfo" = false →
        strContains (strLower title) "vp" = false →
        strContains (strLower title) "director" = false →
        strContains (strLower title) "manager" = true → roleScore title = 10) ∧
      (strContains (strLower title) "ceo" = false →
        strContains (strLower title) "cto" = false →
        strContains (strLower title) "cfo" = false →
        strContains (strLower title) "vp" = false →
        strContains (strLower title) "director" = false →
        strContains (strLower title) "manager" = false →
        strContains (strLower title) "other" = true → roleScore title = 5) ∧
      (strContains (strLower title) "ceo" = false →
        strContains (strLower title) "cto" = false →
        strContains (strLower title) "cfo" = false →
        strContains (strLower title) "vp" = false →
        strContains (strLower title) "director" = false →
        strContains (strLower title) "manager" = false →
        strContains (strLower title) "other" = false → roleScore title = 0)) ∧
    (∀ title : String, strContains (strLower title) "director" = true →
      strContains (strLower title) "cto" = true) ∧
    roleScore "CTO" = 25 ∧ roleScore "Manager" = 10 := by
  refine ⟨?_, fun title h => contains_director_cto (strLower title) h, by decide, by decide⟩
  intro title
  unfold roleScore
  refine ⟨?_, ?_, ?_, ?_, ?_, ?_, ?_, ?_⟩ <;> intros <;> simp_all

/-- Witness for C6 (amended): every satisfiable keyword branch at a concrete
title, and the director-implies-cto embedding at a concrete title. -/
theorem roleScore_spec_witness :
    roleScore "CEO" = 30 ∧ roleScore "Chief CTO person" = 25 ∧ roleScore "CFO" = 25 ∧
    roleScore "VP Sales" = 20 ∧ roleScore "Senior Manager" = 10 ∧
    roleScore "Other duties" = 5 ∧ roleScore "Engineer" = 0 ∧
    strContains (strLower "Art Director") "cto" = true := by
  refine ⟨(roleScore_spec.1 "CEO").1 (by decide),
    (roleScore_spec.1 "Chief CTO person").2.1 (by decide) (by decide),
    (roleScore_spec.1 "CFO").2.2.1 (by decide) (by decide) (by decide),
    (roleScore_spec.1 "VP Sales").2.2.2.1 (by decide) (by decide) (by decide) (by decide),
    (roleScore_spec.1 "Senior Manager").2.2.2.2.2.1 (by decide) (by decide) (by decide)
      (by decide) (by decide) (by decide),
    (roleScore_spec.1 "Other duties").2.2.2.2.2.2.1 (by decide) (by decide) (by decide)
      (by decide) (by decide) (by decide) (by decide),
    (roleScore_spec.1 "Engineer").2.2.2.2.2.2.2 (by decide) (by decide) (by decide)
      (by decide) (by decide) (by decide) (by decide),
    roleScore_spec.2.1 "Art Director" (by decide)⟩

/-! ### C2: edge strengths stay in `[0, 1]` and `trackInteraction` is monotone -/

lemma trackInteraction_edges (s : GraphState) (cid ty : String) (meta : Metadata) (now : ℤ) :
    (trackInteraction s cid ty meta now).edges = updateRelationshipStrength s cid ty meta now := rfl

lemma interactionIncrease_nonneg (ty : String) (meta : Metadata) :
    0 ≤ interactionIncrease ty meta := by
  have hbase : 0 ≤ interactionBase ty meta := by
    unfold interactionBase
    split_ifs <;> norm_num
  unfold interactionIncrease
  split_ifs
  · positivity
  · exact hbase

lemma hubSpotContactEdges_strength (contacts : List HSContact) (companies : List HSCompany)
    (now : ℤ) : ∀ e ∈ hubSpotContactEdges contacts companies now,
    0 ≤ e.strength ∧ e.strength ≤ 1 := by
  intro e he
  unfold hubSpotContactEdges at he
  rw [List.mem_flatMap] at he
  obtain ⟨c, _, he⟩ := he
  rw [List.mem_append] at he
  rcases he with he | he
  · rcases hj : jsOr c.reportsTo c.managerId with _ | mid
    · simp [hj] at he
    · simp only [hj] at he
      rcases hf : contacts.find? (fun m => m.id == mid || m.hubspotId == mid) with _ | mgr
      · simp [hf] at he
      · simp only [hf] at he
        simp at he
        subst he
        norm_num
  · rcases hj : jsStr c.companyId with _ | compId
    · simp [hj] at he
    · simp only [hj] at he
      rcases hf : companies.find? (fun co => co.hubspotId == compId) with _ | comp
      · simp [hf] at he
      · simp only [hf] at he
        simp at he
        subst he
        norm_num

lemma hubSpotDealEdges_strength (deals : List HSDeal) (companies : List HSCompany)
    (contacts : List HSContact) : ∀ e ∈ hubSpotDealEdges deals companies contacts,
    0 ≤ e.strength ∧ e.strength ≤ 1 := by
  intro e he
  unfold hubSpotDealEdges at he
  rw [List.mem_flatMap] at he
  obtain ⟨d, _, he⟩ := he
  rw [List.mem_append] at he
  rcases he with he | he
  · rcases hj : jsStr d.companyId with _ | compId
    · simp [hj] at he
    · simp only [hj] at he
      rcases hf : companies.find? (fun co => co.hubspotId == compId) with _ | comp
      · simp [hf] at he
      · simp only [hf] at he
        simp at he
        subst he
        norm_num
  · rw [List.mem_flatMap] at he
    obtain ⟨contactId, _, he⟩ := he
    rcases hf : contacts.find? (fun c => c.hubspotId == contactId) with _ | c
    · simp [hf] at he
    · simp only [hf] at he
      simp at he
      subst he
      constructor <;> split_ifs <;> norm_num

lemma addSuggestedEdges_strength (suggestions : List Suggestion) :
    ∀ (edges : List Edge), (∀ e ∈ edges, 0 ≤ e.strength ∧ e.strength ≤ 1) →
    (∀ sg ∈ suggestions, 0 ≤ sg.strength ∧ sg.strength ≤ 1) →
    ∀ e ∈ addSuggestedEdges edges suggestions, 0 ≤ e.strength ∧ e.strength ≤ 1 := by
  induction suggestions with
  | nil => intro edges he _ e hmem; exact he e hmem
  | cons sg rest ih =>
    intro edges he hs e hmem
    have hstep : addSuggestedEdges edges (sg :: rest) =
        addSuggestedEdges
          (if (edges.find? (fun e => (e.source == sg.source && e.target == sg.target) ||
                (e.source == sg.target && e.target == sg.source))).isSome
           then edges else edges ++ [suggestionEdge sg]) rest := rfl
    rw [hstep] at hmem
    refine ih _ ?_ (fun x hx => hs x (List.mem_cons_of_mem _ hx)) e hmem
    intro x hx
    by_cases hdup : (edges.find? (fun e => (e.source == sg.source && e.target == sg.target) ||
        (e.source == sg.target && e.target == sg.source))).isSome = true
    · rw [if_pos hdup] at hx
      exact he x hx
    · rw [if_neg hdup] at hx
      rcases List.mem_append.1 hx with hx | hx
      · exact he x hx
      · have hx2 : x = suggestionEdge sg := by simpa using hx
        subst hx2
        exact hs sg (List.mem_cons_self _ _)

/-- C2. Edge strengths stay in `[0, 1]` under every store operation that
creates or mutates edges, and `trackInteraction` (the `recordInteraction` of
the spec) never decreases a strength: (1) for every contact id, interaction
type and metadata, each edge after `trackInteraction` keeps its position, has
strength at least its old strength, and lies in `[0, 1]`; (2) every edge built
by the HubSpot importer has strength in `[0, 1]`; (3) the LinkedIn suggestion
pass preserves strengths in `[0, 1]` for in-range suggestion inputs. -/
theorem edge_strength_invariants :
    (∀ (s : GraphState) (cid ty : String) (meta : Metadata) (now : ℤ),
      (∀ e ∈ s.edges, 0 ≤ e.strength ∧ e.strength ≤ 1) →
      (trackInteraction s cid ty meta now).edges.length = s.edges.length ∧
      ∀ (k : ℕ) (e : Edge), s.edges[k]? = some e →
        ∃ e2 : Edge, (trackInteraction s cid ty meta now).edges[k]? = some e2 ∧
          e.strength ≤ e2.strength ∧ 0 ≤ e2.strength ∧ e2.strength ≤ 1) ∧
    (∀ (contacts : List HSContact) (companies : List HSCompany) (deals : List HSDeal) (now : ℤ),
      ∀ e ∈ (loadFromHubSpot contacts companies deals now).edges,
        0 ≤ e.strength ∧ e.strength ≤ 1) ∧
    (∀ (s : GraphState) (suggestions : List Suggestion),
      (∀ e ∈ s.edges, 0 ≤ e.strength ∧ e.strength ≤ 1) →
      (∀ sg ∈ suggestions, 0 ≤ sg.strength ∧ sg.strength ≤ 1) →
      ∀ e ∈ (enrichAddSuggestions s suggestions).edges,
        0 ≤ e.strength ∧ e.strength ≤ 1) := by
  refine ⟨?_, ?_, ?_⟩
  · intro s cid ty meta now hinv
    rw [trackInteraction_edges]
    unfold updateRelationshipStrength
    constructor
    · exact List.length_map _ _
    · intro k e hke
      have hmem : e ∈ s.edges := List.getElem?_mem hke
      obtain ⟨h0, h1⟩ := hinv e hmem
      have hinc := interactionIncrease_nonneg ty meta
      refine ⟨strengthUpdatedEdge cid ty meta now e,
        by rw [List.getElem?_map, hke, Option.map_some'], ?_⟩
      unfold strengthUpdatedEdge
      by_cases hcond : ((e.source == cid || e.target == cid)
          && e.type != "works_at" && e.type != "belongs_to") = true
      · rw [if_pos hcond]
        refine ⟨le_min (by linarith) h1, le_min (by linarith) (by norm_num), min_le_right _ _⟩
      · rw [if_neg hcond]
        exact ⟨le_refl _, h0, h1⟩
  · intro contacts companies deals now e he
    unfold loadFromHubSpot at he
    rcases List.mem_append.1 he with he | he
    · exact hubSpotContactEdges_strength contacts companies now e he
    · exact hubSpotDealEdges_strength deals companies contacts e he
  · intro s suggestions h1 h2 e he
    exact addSuggestedEdges_strength suggestions s.edges h1 h2 e he

/-- Witness for C2: every part of the theorem applied at concrete stores. -/
theorem edge_strength_invariants_witness :
    ((trackInteraction c7State "c1" "meeting" meetingMeta 0).edges.length
        = c7State.edges.length ∧
      ∃ e2 : Edge, (trackInteraction c7State "c1" "meeting" meetingMeta 0).edges[0]? = some e2 ∧
        c7Edge.strength ≤ e2.strength ∧ 0 ≤ e2.strength ∧ e2.strength ≤ 1) ∧
    (0 ≤ (suggestionEdge ghostSuggestion).strength ∧
      (suggestionEdge ghostSuggestion).strength ≤ 1) := by
  constructor
  · have hinv : ∀ e ∈ c7State.edges, 0 ≤ e.strength ∧ e.strength ≤ 1 := by
      intro e he
      simp only [c7State] at he
      simp at he
      subst he
      norm_num [c7Edge]
    obtain ⟨hlen, hpos⟩ := edge_strength_invariants.1 c7State "c1" "meeting" meetingMeta 0 hinv
    exact ⟨hlen, hpos 0 c7Edge rfl⟩
  · have hinv : ∀ e ∈ c1State.edges, 0 ≤ e.strength ∧ e.strength ≤ 1 := by
      intro e he
      simp [c1State] at he
    have hsg : ∀ sg ∈ [ghostSuggestion], 0 ≤ sg.strength ∧ sg.strength ≤ 1 := by
      intro sg hmem
      have : sg = ghostSuggestion := by simpa using hmem
      subst this
      norm_num [ghostSuggestion]
    refine edge_strength_invariants.2.2 c1State [ghostSuggestion] hinv hsg
      (suggestionEdge ghostSuggestion) ?_
    have : (enrichAddSuggestions c1State [ghostSuggestion]).edges
        = [suggestionEdge ghostSuggestion] := rfl
    rw [this]
    exact List.mem_singleton_self _

/-! ### C7: meeting interactions add exactly `0.04 × 1.2` -/

/-- C7. A `trackInteraction(contactId, meeting, {completed: true})` call sets
the strength of every non-structural edge touching the contact to exactly
`min (strength + 0.04 × 1.2) 1` (an increase of 0.048 clamped at 1.0) and
leaves every other edge strength unchanged. -/
theorem trackInteraction_meeting_exact :
    ∀ (s : GraphState) (cid : String) (now : ℤ) (k : ℕ) (e : Edge),
      s.edges[k]? = some e →
      ((trackInteraction s cid "meeting" meetingMeta now).edges[k]?).map Edge.strength =
        some (if (e.source == cid || e.target == cid)
                 && e.type != "works_at" && e.type != "belongs_to"
              then min (e.strength + (4/100) * (12/10)) 1
              else e.strength) := by
  intro s cid now k e hke
  rw [trackInteraction_edges]
  unfold updateRelationshipStrength
  rw [List.getElem?_map, hke, Option.map_some', Option.map_some']
  unfold strengthUpdatedEdge
  have hinc : interactionIncrease "meeting" meetingMeta = (4/100) * (12/10) := by
    simp [interactionIncrease, interactionBase, meetingMeta]
  by_cases hcond : ((e.source == cid || e.target == cid)
      && e.type != "works_at" && e.type != "belongs_to") = true
  · rw [if_pos hcond, if_pos hcond]
    simp [hinc]
  · rw [if_neg hcond, if_neg hcond]

/-- Witness for C7: the spec scenario, a single non-structural edge of strength
0.5 ends at exactly 0.548. -/
theorem trackInteraction_meeting_exact_witness :
    ((trackInteraction c7State "c1" "meeting" meetingMeta 0).edges[0]?).map Edge.strength
      = some (548/1000) := by
  rw [trackInteraction_meeting_exact c7State "c1" 0 0 c7Edge rfl]
  have hcond : ((c7Edge.source == "c1" || c7Edge.target == "c1")
      && c7Edge.type != "works_at" && c7Edge.type != "belongs_to") = true := by decide
  rw [if_pos hcond]
  norm_num [c7Edge]

/-! ### C3: there is no `ReferentialError` -/

/-- C3 counterexample. The suggestion phase of `enrichWithLinkedIn` inserts an
edge both of whose endpoints reference absent node ids: no error of any kind is
raised (the operation is total) and the store changes, gaining the dangling
edge — contradicting the claim that such an insertion always raises
`ReferentialError` with the store unchanged. -/
theorem referential_error_counterexample :
    (enrichAddSuggestions c1State [ghostSuggestion]).edges
        = c1State.edges ++ [suggestionEdge ghostSuggestion] ∧
    (suggestionEdge ghostSuggestion).source = "ghost1" ∧
    (suggestionEdge ghostSuggestion).target = "ghost2" ∧
    (c1State.nodes.map Node.id).contains "ghost1" = false ∧
    (c1State.nodes.map Node.id).contains "ghost2" = false ∧
    (enrichAddSuggestions c1State [ghostSuggestion]).edges ≠ c1State.edges := by
  refine ⟨rfl, rfl, rfl, by decide, by decide, ?_⟩
  intro h
  have h2 := congrArg List.length h
  simp [enrichAddSuggestions, addSuggestedEdges, c1State] at h2

/-- C3 (amended). The code has no `ReferentialError` at all. The HubSpot
importer drops, silently, any edge whose
endpoint reference does not resolve: every imported edge has both endpoints
among the imported nodes. The LinkedIn suggestion pass performs no referential
check: absent a duplicate unordered pair, the suggested edge is appended to the
store regardless of whether any node with those ids exists. -/
theorem referential_integrity_spec :
    (∀ (contacts : List HSContact) (companies : List HSCompany) (deals : List HSDeal) (now : ℤ),
      ∀ e ∈ (loadFromHubSpot contacts companies deals now).edges,
        (∃ n ∈ (loadFromHubSpot contacts companies deals now).nodes, n.id = e.source) ∧
        (∃ n ∈ (loadFromHubSpot contacts companies deals now).nodes, n.id = e.target)) ∧
    (∀ (s : GraphState) (sg : Suggestion),
      (s.edges.find? (fun e => (e.source == sg.source && e.target == sg.target) ||
          (e.source == sg.target && e.target == sg.source))).isSome = false →
      (enrichAddSuggestions s [sg]).edges = s.edges ++ [suggestionEdge sg]) := by
  constructor
  · intro contacts companies deals now e he
    have hcontact : ∀ c ∈ contacts,
        ∃ n ∈ (loadFromHubSpot contacts companies deals now).nodes, n.id = c.id := by
      intro c hc
      refine ⟨_, List.mem_append.2 (Or.inl (List.mem_append.2 (Or.inl
        (List.mem_map_of_mem _ hc)))), rfl⟩
    have hcompany : ∀ co ∈ companies,
        ∃ n ∈ (loadFromHubSpot contacts companies deals now).nodes, n.id = co.id := by
      intro co hco
      refine ⟨_, List.mem_append.2 (Or.inl (List.mem_append.2 (Or.inr
        (List.mem_map_of_mem _ hco)))), rfl⟩
    have hdeal : ∀ d ∈ deals,
        ∃ n ∈ (loadFromHubSpot contacts companies deals now).nodes, n.id = d.id := by
      intro d hd
      refine ⟨_, List.mem_append.2 (Or.inr (List.mem_map_of_mem _ hd)), rfl⟩
    have he2 : e ∈ hubSpotContactEdges contacts companies now
        ∨ e ∈ hubSpotDealEdges deals companies contacts := List.mem_append.1 he
    rcases he2 with he2 | he2
    · unfold hubSpotContactEdges at he2
      rw [List.mem_flatMap] at he2
      obtain ⟨c, hc, he2⟩ := he2
      rcases List.mem_append.1 he2 with he3 | he3
      · rcases hj : jsOr c.reportsTo c.managerId with _ | mid
        · simp [hj] at he3
        · simp only [hj] at he3
          rcases hf : contacts.find? (fun m => m.id == mid || m.hubspotId == mid) with _ | mgr
          · simp [hf] at he3
          · simp only [hf] at he3
            simp at he3
            subst he3
            exact ⟨hcontact c hc, hcontact mgr (List.mem_of_find?_eq_some hf)⟩
      · rcases hj : jsStr c.companyId with _ | compId
        · simp [hj] at he3
        · simp only [hj] at he3
          rcases hf : companies.find? (fun co => co.hubspotId == compId) with _ | comp
          · simp [hf] at he3
          · simp only [hf] at he3
            simp at he3
            subst he3
            exact ⟨hcontact c hc, hcompany comp (List.mem_of_find?_eq_some hf)⟩
    · unfold hubSpotDealEdges at he2
      rw [List.mem_flatMap] at he2
      obtain ⟨d, hd, he2⟩ := he2
      rcases List.mem_append.1 he2 with he3 | he3
      · rcases hj : jsStr d.companyId with _ | compId
        · simp [hj] at he3
        · simp only [hj] at he3
          rcases hf : companies.find? (fun co => co.hubspotId == compId) with _ | comp
          · simp [hf] at he3
          · simp only [hf] at he3
            simp at he3
            subst he3
            exact ⟨hdeal d hd, hcompany comp (List.mem_of_find?_eq_some hf)⟩
      · rw [List.mem_flatMap] at he3
        obtain ⟨contactId, _, he3⟩ := he3
        rcases hf : contacts.find? (fun c => c.hubspotId == contactId) with _ | c
        · simp [hf] at he3
        · simp only [hf] at he3
          simp at he3
          subst he3
          exact ⟨hcontact c (List.mem_of_find?_eq_some hf), hdeal d hd⟩
  · intro s sg hdup
    unfold enrichAddSuggestions addSuggestedEdges
    simp only [List.foldl_cons, List.foldl_nil]
    rw [if_neg (by rw [hdup]; exact Bool.false_ne_true)]

/-- Witness for C3 (amended): both parts at concrete inputs. The two-contact
batch yields a `reports_to` edge whose endpoints resolve; the ghost
suggestion is appended to an empty edge list without any check. -/
theorem referential_integrity_spec_witness :
    ((∃ n ∈ (loadFromHubSpot [hsA, hsB] [] [] 0).nodes, n.id = hsEdgeAB.source) ∧
      (∃ n ∈ (loadFromHubSpot [hsA, hsB] [] [] 0).nodes, n.id = hsEdgeAB.target)) ∧
    (enrichAddSuggestions c1State [ghostSuggestion]).edges
      = c1State.edges ++ [suggestionEdge ghostSuggestion] := by
  refine ⟨referential_integrity_spec.1 [hsA, hsB] [] [] 0 hsEdgeAB ?_,
    referential_integrity_spec.2 c1State ghostSuggestion rfl⟩
  rw [show (loadFromHubSpot [hsA, hsB] [] [] 0).edges = [hsEdgeAB] from rfl]
  exact List.mem_singleton_self _

/-! ### C4: getGraphData filtering -/

/-- C4 counterexample. With only an `accountId` filter, `getGraphData` keeps
every edge touching an account contact, including the relationship edge
`c1 → c2` whose target `c2` is not among the returned nodes: the claimed
edge-closure property fails for the `accountId` filter alone. -/
theorem getGraphData_closure_counterexample :
    (getGraphData c4State c4Filter).edges = [c4WorksEdge, c4MutualEdge] ∧
    (getGraphData c4State c4Filter).nodes.map Node.id = ["c1", "acc"] ∧
    c4MutualEdge.target = "c2" ∧
    (["c1", "acc"] : List String).contains "c2" = false := by
  exact ⟨rfl, rfl, rfl, by decide⟩

/-- C4 (amended). Only the `minInfluence` stage (the last one) filters edges
against the surviving node ids, so when `minInfluence` is set to a nonzero
value, every returned edge has both endpoints among the returned nodes; a
returned contact node always meets the threshold; and every non-contact node
that survived the `accountId` / `dealId` stages is retained. With only
`accountId` or `dealId` set, edges may reference nodes outside the result. -/
theorem getGraphData_minInfluence_spec :
    ∀ (s : GraphState) (f : GraphFilter) (m : ℚ), f.minInfluence = some m → ¬ m = 0 →
      (∀ e ∈ (getGraphData s f).edges,
        (∃ n ∈ (getGraphData s f).nodes, n.id = e.source) ∧
        (∃ n ∈ (getGraphData s f).nodes, n.id = e.target)) ∧
      (∀ n ∈ (getGraphData s f).nodes, n.type = "contact" → m ≤ n.influenceScore) ∧
      (∀ n ∈ (applyDealFilter (applyAccountFilter ⟨s.nodes, s.edges⟩ f.accountId) f.dealId).nodes,
        n.type ≠ "contact" → n ∈ (getGraphData s f).nodes) := by
  intro s f m hm hm0
  have hgd : getGraphData s f = applyMinInfluenceFilter
      (applyDealFilter (applyAccountFilter ⟨s.nodes, s.edges⟩ f.accountId) f.dealId)
      (some m) := by
    unfold getGraphData
    rw [hm]
  rw [hgd]
  simp only [applyMinInfluenceFilter]
  rw [if_neg hm0]
  refine ⟨?_, ?_, ?_⟩
  · intro e he
    rw [List.mem_filter] at he
    obtain ⟨_, he2⟩ := he
    rw [Bool.and_eq_true] at he2
    obtain ⟨hsrc, htgt⟩ := he2
    constructor
    · have hsrc2 : e.source ∈ (((applyDealFilter (applyAccountFilter ⟨s.nodes, s.edges⟩
          f.accountId) f.dealId).nodes.filter (fun n =>
            n.type != "contact" || decide (m ≤ n.influenceScore))).map (fun n => n.id)) := by
        simpa using hsrc
      rcases List.mem_map.1 hsrc2 with ⟨n, hn, hid⟩
      exact ⟨n, hn, hid⟩
    · have htgt2 : e.target ∈ (((applyDealFilter (applyAccountFilter ⟨s.nodes, s.edges⟩
          f.accountId) f.dealId).nodes.filter (fun n =>
            n.type != "contact" || decide (m ≤ n.influenceScore))).map (fun n => n.id)) := by
        simpa using htgt
      rcases List.mem_map.1 htgt2 with ⟨n, hn, hid⟩
      exact ⟨n, hn, hid⟩
  · intro n hn htype
    rw [List.mem_filter] at hn
    obtain ⟨_, hp⟩ := hn
    rw [Bool.or_eq_true] at hp
    rcases hp with hp | hp
    · rw [htype] at hp
      simp at hp
    · simpa using hp
  · intro n hn htype
    rw [List.mem_filter]
    refine ⟨hn, ?_⟩
    rw [Bool.or_eq_true]
    left
    simpa using htype

/-- Witness for C4 (amended): with threshold 50 over a store holding an
80-influence contact, a 10-influence contact and an account, the surviving
employment edge has both endpoints among the returned nodes, the surviving
contact meets the threshold, and the account node is retained. -/
theorem getGraphData_minInfluence_spec_witness :
    (∃ n ∈ (getGraphData c4WitnessState c4WitnessFilter).nodes, n.id = c4HiWorksEdge.source) ∧
    (50:ℚ) ≤ c4HiContact.influenceScore ∧
    accNode ∈ (getGraphData c4WitnessState c4WitnessFilter).nodes := by
  have h := getGraphData_minInfluence_spec c4WitnessState c4WitnessFilter 50 rfl (by norm_num)
  refine ⟨(h.1 c4HiWorksEdge ?_).1, h.2.1 c4HiContact ?_ rfl, h.2.2 accNode ?_ (by decide)⟩
  · rw [show (getGraphData c4WitnessState c4WitnessFilter).edges = [c4HiWorksEdge] from rfl]
    exact List.mem_singleton_self _
  · rw [show (getGraphData c4WitnessState c4WitnessFilter).nodes
        = [c4HiContact, accNode] from rfl]
    exact List.mem_cons_self _ _
  · rw [show (applyDealFilter (applyAccountFilter
        ⟨c4WitnessState.nodes, c4WitnessState.edges⟩ c4WitnessFilter.accountId)
        c4WitnessFilter.dealId).nodes = c4WitnessState.nodes from rfl]
    simp [c4WitnessState]

/-! ### C8: stalling detection -/

/-- C8. For every non-closed deal in one of the five active stages,
`detectStalling` reports `isStalling` exactly when the days in the current
stage exceed 1.5 times the per-stage average (new 3, contacted 5, qualified 7,
proposal 10, negotiation 14), that is the explicit thresholds 4.5, 7.5, 10.5,
15, 21; and the scenario deal in stage `qualified` with last activity 12 days
ago is stalling. -/
theorem detectStalling_spec :
    (∀ (deal : Deal) (now : ℤ),
      (deal.stage = "new" →
        ((detectStalling deal now).isStalling = true ↔
          (9:ℚ)/2 < (calculateDaysInStage deal now : ℚ))) ∧
      (deal.stage = "contacted" →
        ((detectStalling deal now).isStalling = true ↔
          (15:ℚ)/2 < (calculateDaysInStage deal now : ℚ))) ∧
      (deal.stage = "qualified" →
        ((detectStalling deal now).isStalling = true ↔
          (21:ℚ)/2 < (calculateDaysInStage deal now : ℚ))) ∧
      (deal.stage = "proposal" →
        ((detectStalling deal now).isStalling = true ↔
          (15:ℚ) < (calculateDaysInStage deal now : ℚ))) ∧
      (deal.stage = "negotiation" →
        ((detectStalling deal now).isStalling = true ↔
          (21:ℚ) < (calculateDaysInStage deal now : ℚ)))) ∧
    (∀ now : ℤ, (detectStalling (qualifiedDeal now) now).isStalling = true) := by
  constructor
  · intro deal now
    have havg : avgStageDuration "new" = 3 ∧ avgStageDuration "contacted" = 5 ∧
        avgStageDuration "qualified" = 7 ∧ avgStageDuration "proposal" = 10 ∧
        avgStageDuration "negotiation" = 14 := by decide
    refine ⟨?_, ?_, ?_, ?_, ?_⟩ <;> intro hstage <;>
      simp only [detectStalling, decide_eq_true_eq] <;> rw [hstage]
    · rw [havg.1]; norm_num
    · rw [havg.2.1]; norm_num
    · rw [havg.2.2.1]; norm_num
    · rw [havg.2.2.2.1]; norm_num
    · rw [havg.2.2.2.2]; norm_num
  · intro now
    have hdays : calculateDaysInStage (qualifiedDeal now) now = 12 := by
      unfold calculateDaysInStage qualifiedDeal
      norm_num
      decide
    have hstage : (qualifiedDeal now).stage = "qualified" := rfl
    have havg : avgStageDuration "qualified" = 7 := by decide
    simp only [detectStalling, decide_eq_true_eq, hstage, havg, hdays]
    norm_num

/-- Witness for C8: the qualified branch of the theorem at the scenario deal
and clock 0, together with the scenario conclusion itself. -/
theorem detectStalling_spec_witness :
    ((detectStalling (qualifiedDeal 0) 0).isStalling = true ↔
      (21:ℚ)/2 < (calculateDaysInStage (qualifiedDeal 0) 0 : ℚ)) ∧
    (detectStalling (qualifiedDeal 0) 0).isStalling = true :=
  ⟨(detectStalling_spec.1 (qualifiedDeal 0) 0).2.2.1 rfl, detectStalling_spec.2 0⟩

/-! ### C5: findPath on identical endpoints and on disconnected pairs -/

lemma adjacent_of_mem_neighborsOf {edges : List Edge} {c n : String}
    (h : n ∈ neighborsOf edges c) : Adjacent edges c n := by
  unfold neighborsOf at h
  rcases List.mem_map.1 h with ⟨e, he, rfl⟩
  have heE : e ∈ edges := List.mem_of_mem_filter he
  have hcond := (List.mem_filter.1 he).2
  rw [Bool.and_eq_true, Bool.and_eq_true] at hcond
  obtain ⟨⟨hor, hw⟩, hb⟩ := hcond
  by_cases hse : (e.source == c) = true
  · rw [if_pos hse]
    exact ⟨e, heE, ⟨by simpa using hw, by simpa using hb⟩,
      Or.inl ⟨by simpa using hse, rfl⟩⟩
  · rw [if_neg hse]
    have hte : (e.target == c) = true := by
      rw [Bool.or_eq_true] at hor
      rcases hor with h2 | h2
      · exact absurd h2 hse
      · exact h2
    exact ⟨e, heE, ⟨by simpa using hw, by simpa using hb⟩,
      Or.inr ⟨by simpa using hte, rfl⟩⟩

lemma bfsLoop_no_walk (edges : List Edge) (start targetId : String) (maxDepth : ℕ)
    (cand : Finset String) (hcand : ∀ e ∈ edges, e.source ∈ cand ∧ e.target ∈ cand)
    (hnowalk : ¬ ∃ p, IsWalk edges start targetId p ∧ p.length ≤ maxDepth + 1) :
    ∀ (N : ℕ) (queue : List (String × List String)) (visited : Finset String)
      (hq : ∀ p ∈ queue, p.1 ∈ cand),
      (cand \ visited).card * (edges.length + 1) + queue.length ≤ N →
      (∀ p ∈ queue, IsWalk edges start p.1 p.2 ∧ p.2.length ≤ maxDepth + 1) →
      bfsLoop edges targetId maxDepth cand hcand queue visited hq = none := by
  intro N
  induction N with
  | zero =>
    intro queue visited hq hN hwalk
    cases queue with
    | nil => rw [bfsLoop]
    | cons head rest =>
      rw [List.length_cons] at hN
      omega
  | succ n ih =>
    intro queue visited hq hN hwalk
    cases queue with
    | nil => rw [bfsLoop]
    | cons head rest =>
      obtain ⟨currentId, path⟩ := head
      obtain ⟨hwalkhead, hlenhead⟩ := hwalk (currentId, path) (List.mem_cons_self _ _)
      rw [bfsLoop]
      by_cases htgt : currentId = targetId
      · exfalso
        apply hnowalk
        exact ⟨path, htgt ▸ hwalkhead, hlenhead⟩
      · rw [if_neg htgt]
        by_cases hdeep : maxDepth < path.length
        · rw [if_pos hdeep]
          refine ih rest visited _ ?_ (fun p hp => hwalk p (List.mem_cons_of_mem _ hp))
          rw [List.length_cons] at hN
          linarith
        · rw [if_neg hdeep]
          by_cases hvis : currentId ∈ visited
          · rw [dif_pos hvis]
            refine ih rest visited _ ?_ (fun p hp => hwalk p (List.mem_cons_of_mem _ hp))
            rw [List.length_cons] at hN
            linarith
          · rw [dif_neg hvis]
            refine ih _ (insert currentId visited) _ ?_ ?_
            · have hcur : currentId ∈ cand := hq (currentId, path) (List.mem_cons_self _ _)
              have hcard : (cand \ insert currentId visited).card + 1
                  ≤ (cand \ visited).card := by
                have hsub : cand \ insert currentId visited ⊂ cand \ visited := by
                  apply Finset.ssubset_iff_of_subset
                    (Finset.sdiff_subset_sdiff le_rfl (Finset.subset_insert _ _)) |>.mpr
                  exact ⟨currentId, Finset.mem_sdiff.mpr ⟨hcur, hvis⟩, by simp⟩
                exact Finset.card_lt_card hsub
              have hlen : (((neighborsOf edges currentId).filter
                  (fun m => decide (m ∉ visited))).map
                  (fun m => (m, path ++ [m]))).length ≤ edges.length := by
                rw [List.length_map]
                refine le_trans (List.length_filter_le _ _) ?_
                unfold neighborsOf
                rw [List.length_map]
                exact List.length_filter_le _ _
              have hmul := Nat.mul_le_mul_right (edges.length + 1) hcard
              rw [Nat.succ_mul] at hmul
              rw [List.length_append]
              rw [List.length_cons] at hN
              linarith
            · intro p hp
              rcases List.mem_append.1 hp with hp | hp
              · exact hwalk p (List.mem_cons_of_mem _ hp)
              · rcases List.mem_map.1 hp with ⟨m, hm, rfl⟩
                have hm2 : m ∈ neighborsOf edges currentId := List.mem_of_mem_filter hm
                constructor
                · exact IsWalk.step hwalkhead (adjacent_of_mem_neighborsOf hm2)
                · rw [List.length_append]
                  simp only [List.length_singleton]
                  omega

/-- C5. For every node id present in the store, `findPath(A, A)` returns the
single-node path `[A]` immediately; and whenever no walk over non-structural
edges joins `sourceId` to `targetId` within `maxDepth` hops (a walk on at most
`maxDepth + 1` nodes), `findPath` returns null. -/
theorem findPath_spec :
    (∀ (nodes : List Node) (edges : List Edge) (sourceId : String) (a : Node) (maxDepth : ℕ),
      nodes.find? (fun n => n.id == sourceId) = some a →
      findPath nodes edges sourceId sourceId maxDepth = some [some a]) ∧
    (∀ (nodes : List Node) (edges : List Edge) (sourceId targetId : String) (maxDepth : ℕ),
      (¬ ∃ p, IsWalk edges sourceId targetId p ∧ p.length ≤ maxDepth + 1) →
      findPath nodes edges sourceId targetId maxDepth = none) := by
  constructor
  · intro nodes edges sourceId a maxDepth hfind
    unfold findPath
    rw [bfsLoop]
    rw [if_pos rfl]
    rw [Option.map_some']
    simp [hfind]
  · intro nodes edges sourceId targetId maxDepth hnowalk
    unfold findPath
    rw [bfsLoop_no_walk edges sourceId targetId maxDepth _ _ hnowalk
      ((endpointCand edges sourceId \ ∅).card * (edges.length + 1) + 1) _ _ _ le_rfl ?_]
    · rfl
    · intro p hp
      have hp2 : p = (sourceId, [sourceId]) := by simpa using hp
      subst hp2
      exact ⟨IsWalk.single, by simp⟩

lemma isWalk_nil_eq {start b : String} {p : List String} (h : IsWalk [] start b p) :
    start = b := by
  induction h with
  | single => rfl
  | step hw hadj ih =>
    rcases hadj with ⟨e, he, _⟩
    simp at he

/-- Witness for C5: both parts at concrete stores. A one-node store answers the
reflexive query with the single-node path; with no edges at all, distinct ids
are unconnected and the search returns null. -/
theorem findPath_spec_witness :
    findPath [c1Node] [] "c1" "c1" 3 = some [some c1Node] ∧
    findPath [] [] "a" "b" 3 = none := by
  constructor
  · exact findPath_spec.1 [c1Node] [] "c1" c1Node 3 rfl
  · refine findPath_spec.2 [] [] "a" "b" 3 ?_
    rintro ⟨p, hw, _⟩
    exact absurd (isWalk_nil_eq hw) (by decide)

/-! ### C9: getOrgChart terminates, levels via a per-call visited set -/

lemma calculateLevels_visited (h : List (String × OrgEntry)) (cid : String)
    (visited : Finset String) (hv : cid ∈ visited) :
    calculateLevels h cid visited = some 0 := by
  rw [calculateLevels.eq_def, if_pos hv]

lemma calculateLevels_notfound (h : List (String × OrgEntry)) (cid : String)
    (visited : Finset String) (hv : cid ∉ visited)
    (hf : objGet h cid = none) : calculateLevels h cid visited = none := by
  rw [calculateLevels.eq_def, if_neg hv]
  split <;> simp_all

lemma calculateLevels_top (h : List (String × OrgEntry)) (cid : String)
    (visited : Finset String) (entry : OrgEntry) (hv : cid ∉ visited)
    (hf : objGet h cid = some entry) (hr : entry.reportsTo = none) :
    calculateLevels h cid visited = some 0 := by
  rw [calculateLevels.eq_def, if_neg hv]
  split
  · simp_all
  · rename_i p hp
    rw [hf] at hp
    cases hp
    rw [hr]

lemma calculateLevels_mgr (h : List (String × OrgEntry)) (cid : String)
    (visited : Finset String) (entry : OrgEntry) (mgr : String) (hv : cid ∉ visited)
    (hf : objGet h cid = some entry) (hr : entry.reportsTo = some mgr) :
    calculateLevels h cid visited
      = (calculateLevels h mgr (insert cid visited)).map (fun l => l + 1) := by
  rw [calculateLevels.eq_def, if_neg hv]
  split
  · simp_all
  · rename_i p hp
    rw [hf] at hp
    cases hp
    rw [hr]

/-- C9. `getOrgChart` terminates on every input (all the embedded functions are
total; the level recursion is well-founded by the shrinking complement of the
per-call visited set): a revisited contact is treated as level 0, a contact
with no resolvable manager pointer gets level 0, every other contact gets
`1 + level(manager)`; and on the concrete cyclic 2-cycle store the whole
`getOrgChart` call returns a chart (truncating the cycle at the revisited
contact, which puts both contacts at level 2). -/
theorem getOrgChart_terminates_spec :
    (∀ (h : List (String × OrgEntry)) (cid : String) (visited : Finset String),
      cid ∈ visited → calculateLevels h cid visited = some 0) ∧
    (∀ (h : List (String × OrgEntry)) (cid : String) (visited : Finset String)
        (entry : OrgEntry), cid ∉ visited → objGet h cid = some entry →
      entry.reportsTo = none → calculateLevels h cid visited = some 0) ∧
    (∀ (h : List (String × OrgEntry)) (cid : String) (visited : Finset String)
        (entry : OrgEntry) (mgr : String), cid ∉ visited →
      objGet h cid = some entry → entry.reportsTo = some mgr →
      calculateLevels h cid visited
        = (calculateLevels h mgr (insert cid visited)).map (fun l => l + 1)) ∧
    getOrgChart cyclicState "acc" = some cyclicChart := by
  refine ⟨fun h cid visited hv => calculateLevels_visited h cid visited hv,
    fun h cid visited entry hv hf hr => calculateLevels_top h cid visited entry hv hf hr,
    fun h cid visited entry mgr hv hf hr => calculateLevels_mgr h cid visited entry mgr hv hf hr,
    ?_⟩
  have hca : calculateLevels cyclicH "a" ∅ = some 2 := by
    rw [calculateLevels_mgr cyclicH "a" ∅ entryA "b" (by simp) rfl rfl]
    rw [calculateLevels_mgr cyclicH "b" (insert "a" ∅) entryB "a" (by decide) rfl rfl]
    rw [calculateLevels_visited cyclicH "a" (insert "b" (insert "a" ∅)) (by decide)]
    rfl
  have hcb : calculateLevels cyclicH "b" ∅ = some 2 := by
    rw [calculateLevels_mgr cyclicH "b" ∅ entryB "a" (by simp) rfl rfl]
    rw [calculateLevels_mgr cyclicH "a" (insert "b" ∅) entryA "b" (by decide) rfl rfl]
    rw [calculateLevels_visited cyclicH "b" (insert "a" (insert "b" ∅)) (by decide)]
    rfl
  have hstep : getOrgChart cyclicState "acc" = assignLevels cyclicH cyclicH := rfl
  rw [hstep]
  show assignLevels cyclicH (("a", entryA) :: [("b", entryB)]) = some cyclicChart
  simp only [assignLevels, hca, hcb]
  rfl

/-- Witness for C9: the three level equations at concrete hierarchies. -/
theorem getOrgChart_terminates_spec_witness :
    calculateLevels cyclicH "a" (insert "a" ∅) = some 0 ∧
    calculateLevels soloH "c1" ∅ = some 0 ∧
    calculateLevels cyclicH "a" ∅
      = (calculateLevels cyclicH "b" (insert "a" ∅)).map (fun l => l + 1) :=
  ⟨getOrgChart_terminates_spec.1 cyclicH "a" (insert "a" ∅) (Finset.mem_insert_self _ _),
    getOrgChart_terminates_spec.2.1 soloH "c1" ∅ soloEntry (by simp) rfl rfl,
    getOrgChart_terminates_spec.2.2.1 cyclicH "a" ∅ entryA "b" (by simp) rfl rfl⟩

/-! ### C10: hot leads and the effect of click-only momentum -/

lemma mem_insertSorted {α : Type} (le : α → α → Bool) (a x : α) (l : List α) :
    x ∈ insertSorted le a l ↔ x = a ∨ x ∈ l := by
  induction l with
  | nil => simp [insertSorted]
  | cons b t ih =>
    simp only [insertSorted]
    split
    · simp [List.mem_cons]
    · rw [List.mem_cons, ih, List.mem_cons]
      tauto

lemma mem_sortWith {α : Type} (le : α → α → Bool) (x : α) (l : List α) :
    x ∈ sortWith le l ↔ x ∈ l := by
  induction l with
  | nil => simp [sortWith]
  | cons a t ih =>
    simp only [sortWith]
    rw [mem_insertSorted, List.mem_cons, ih]

/-- C10 counterexample. A deal whose only momentum signal is one email click
has `hasMomentum = true` and produces no hot lead, but contrary to the claim
that momentum does not raise the urgency score or the smart actions: the
urgency score and the smart actions (both at component level and through
`analyze`) are exactly those of the same deal with no click at all. -/
theorem analyze_click_momentum_counterexample :
    (detectMomentum [c10Click] none 0).hasMomentum = true ∧
    calculateUrgencyScore c10Deal (detectMomentum [c10Click] none 0)
        (detectStalling c10Deal 0) (detectGhosting c10Deal [c10Click] 0)
      = calculateUrgencyScore c10Deal (detectMomentum [] none 0)
        (detectStalling c10Deal 0) (detectGhosting c10Deal [] 0) ∧
    generateSmartActions c10Deal [c10Click] (detectMomentum [c10Click] none 0)
        (detectStalling c10Deal 0) (detectGhosting c10Deal [c10Click] 0) 0
      = generateSmartActions c10Deal [] (detectMomentum [] none 0)
        (detectStalling c10Deal 0) (detectGhosting c10Deal [] 0) 0 ∧
    (analyze [DealInput.mk c10Deal [c10Click] none] 0).hot_leads = [] ∧
    (analyze [DealInput.mk c10Deal [c10Click] none] 0).smart_actions
      = (analyze [DealInput.mk c10Deal [] none] 0).smart_actions := by
  refine ⟨rfl, ?_, rfl, rfl, rfl⟩
  have hm1 : detectMomentum [c10Click] none 0
      = { emailOpens := 0, emailClicks := 1, pricingClicks := 0, proposalOpens := 0,
          meetingAccepted := false, hasMomentum := true } := rfl
  have hm0 : detectMomentum [] none 0
      = { emailOpens := 0, emailClicks := 0, pricingClicks := 0, proposalOpens := 0,
          meetingAccepted := false, hasMomentum := false } := rfl
  have hgh1 : detectGhosting c10Deal [c10Click] 0
      = { isGhosting := true, lastContactDays := 999 } := rfl
  have hgh0 : detectGhosting c10Deal [] 0
      = { isGhosting := true, lastContactDays := 999 } := rfl
  have hst : detectStalling c10Deal 0
      = { isStalling := false, daysInStage := 0, threshold := 9/2, stage := "new" } := by
    have havg : avgStageDuration "new" = 3 := by decide
    unfold detectStalling calculateDaysInStage c10Deal
    norm_num [havg]
  rw [hm1, hm0, hgh1, hgh0, hst]
  unfold calculateUrgencyScore c10Deal jsRound
  norm_num

/-- C10 (amended). `analyze` adds a deal to `hot_leads` only when, in the last
24 hours, proposal opens are positive, or pricing clicks are positive, or email
opens exceed 2; momentum coming solely from an email click or a meeting
acceptance (all three of those counters at zero) makes `hasMomentum` true but
produces no hot-lead entry and leaves both the urgency score and the smart
actions exactly as if `hasMomentum` were false. -/
theorem analyze_hot_leads_spec :
    (∀ (input : List DealInput) (now : ℤ) (hl : HotLead),
      hl ∈ (analyze input now).hot_leads →
      ∃ di ∈ input, (di.deal.stage == "closed") = false ∧
        hl.deal_id = di.deal.id ∧
        (0 < (detectMomentum di.activities di.telemetry now).proposalOpens ∨
         0 < (detectMomentum di.activities di.telemetry now).pricingClicks ∨
         2 < (detectMomentum di.activities di.telemetry now).emailOpens)) ∧
    (∀ (d : Deal) (m : Momentum) (st : StallingInfo) (gh : GhostingInfo),
      m.emailOpens = 0 → m.pricingClicks = 0 → m.proposalOpens = 0 →
      calculateUrgencyScore d m st gh
        = calculateUrgencyScore d { m with hasMomentum := false } st gh ∧
      (∀ (activities : List Activity) (now : ℤ),
        generateSmartActions d activities m st gh now
          = generateSmartActions d activities { m with hasMomentum := false } st gh now) ∧
      dealHotLead d m st gh = none) := by
  constructor
  · intro input now hl hmem
    simp only [analyze] at hmem
    have h1 := List.mem_of_mem_take hmem
    rw [mem_sortWith] at h1
    rcases List.mem_filterMap.1 h1 with ⟨di, hdi, hf⟩
    have hdi2 := List.mem_filter.1 hdi
    refine ⟨di, hdi2.1, by simpa using hdi2.2, ?_, ?_⟩
    · unfold dealHotLead at hf
      by_cases hmom : (detectMomentum di.activities di.telemetry now).hasMomentum = true
      · rw [if_pos hmom] at hf
        by_cases hreason :
            (signalReason (detectMomentum di.activities di.telemetry now) == "") = true
        · rw [if_pos hreason] at hf
          cases hf
        · rw [if_neg hreason] at hf
          cases hf
          rfl
      · rw [if_neg hmom] at hf
        cases hf
    · by_contra hno
      push_neg at hno
      obtain ⟨hp, hc, ho⟩ := hno
      unfold dealHotLead at hf
      by_cases hmom : (detectMomentum di.activities di.telemetry now).hasMomentum = true
      · rw [if_pos hmom] at hf
        have hreason : signalReason (detectMomentum di.activities di.telemetry now) = "" := by
          unfold signalReason
          rw [if_neg (by omega), if_neg (by omega), if_neg (by omega)]
        rw [if_pos (by rw [hreason]; rfl)] at hf
        cases hf
      · rw [if_neg hmom] at hf
        cases hf
  · intro d m st gh h1 h2 h3
    refine ⟨?_, ?_, ?_⟩
    · unfold calculateUrgencyScore
      cases hmom : m.hasMomentum
      · simp [hmom]
      · simp [hmom, h1, h2, h3]
    · intro activities now
      unfold generateSmartActions
      cases hmom : m.hasMomentum
      · simp [hmom]
      · simp [hmom, h1, h2, h3]
    · unfold dealHotLead
      have hreason : signalReason m = "" := by
        unfold signalReason
        rw [if_neg (by omega), if_neg (by omega), if_neg (by omega)]
      cases hmom : m.hasMomentum
      · rw [if_neg (by simp [hmom])]
      · rw [if_pos (by simp [hmom]), if_pos (by rw [hreason]; rfl)]

/-- Witness for C10 (amended): a document view creates a hot lead satisfying
the necessary condition, while the click-only momentum record leaves the
urgency score unchanged and yields no hot lead. -/
theorem analyze_hot_leads_spec_witness :
    (∃ di ∈ [DealInput.mk c10PropDeal [c10PropView] none],
      (di.deal.stage == "closed") = false ∧ c10HotLead.deal_id = di.deal.id ∧
      (0 < (detectMomentum di.activities di.telemetry 0).proposalOpens ∨
       0 < (detectMomentum di.activities di.telemetry 0).pricingClicks ∨
       2 < (detectMomentum di.activities di.telemetry 0).emailOpens)) ∧
    calculateUrgencyScore c10Deal (detectMomentum [c10Click] none 0)
        (detectStalling c10Deal 0) (detectGhosting c10Deal [c10Click] 0)
      = calculateUrgencyScore c10Deal
        { detectMomentum [c10Click] none 0 with hasMomentum := false }
        (detectStalling c10Deal 0) (detectGhosting c10Deal [c10Click] 0) ∧
    dealHotLead c10Deal (detectMomentum [c10Click] none 0)
      (detectStalling c10Deal 0) (detectGhosting c10Deal [c10Click] 0) = none := by
  refine ⟨analyze_hot_leads_spec.1 [DealInput.mk c10PropDeal [c10PropView] none] 0
      c10HotLead ?_,
    (analyze_hot_leads_spec.2 c10Deal (detectMomentum [c10Click] none 0)
      (detectStalling c10Deal 0) (detectGhosting c10Deal [c10Click] 0) rfl rfl rfl).1,
    (analyze_hot_leads_spec.2 c10Deal (detectMomentum [c10Click] none 0)
      (detectStalling c10Deal 0) (detectGhosting c10Deal [c10Click] 0) rfl rfl rfl).2.2⟩
  rw [show (analyze [DealInput.mk c10PropDeal [c10PropView] none] 0).hot_leads
      = [c10HotLead] from rfl]
  exact List.mem_singleton_self _
